import Mathlib

/-!
Verification of the task-orchestration action (usta-action).

A shallow embedding of the TypeScript sources:
  - `src/spec/utils.ts`   : checklist parser, task queries, `markTaskAsCompleted`,
                            `getTaskProgress`, `fuzzyMatchSpec`
  - `src/run-usta.ts`     : per-task retry loop (`runUsta`), `TestOutputCapture`
  - `src/pr-context.ts`   : `getPRContext`
  - `src/output-capture.ts`: `CommentManager` (`updateTaskStatus`, `updateComment`,
                            `callGitHubAPI`)

JavaScript strings are modelled as `List Char` (`JStr`); a document is the list
of its lines, exactly the result of `content.split("\n")` in the source.
Filesystem reads/writes are made explicit: functions take the document and
return the rewritten document, with `Option`/`Except` for thrown errors.
The regexes in the source are fixed; each is compiled here by hand into a
deterministic matcher equivalent to the backtracking semantics of the original
pattern (the derivations are recorded in comments at each matcher).
-/

set_option maxRecDepth 20000

namespace Usta

abbrev JStr := List Char

/-- JavaScript whitespace class `\s` (WhiteSpace plus LineTerminator). -/
def jsWhitespaceChars : JStr :=
  [' ', '\t', '\n', '\r', '\x0b', '\x0c', ' ', ' ', ' ',
   ' ', ' ', ' ', ' ', ' ', ' ', ' ',
   ' ', ' ', ' ', ' ', ' ', ' ', ' ',
   '　', '﻿']

def isJsSpace (c : Char) : Bool := jsWhitespaceChars.contains c

/-- JS `String.prototype.trim` on both ends. -/
def jsTrim (s : JStr) : JStr :=
  ((s.dropWhile isJsSpace).reverse.dropWhile isJsSpace).reverse

/-- JS `hay.includes(needle)`: substring containment. -/
def jsIncludes (hay needle : JStr) : Bool :=
  match hay with
  | [] => needle.isPrefixOf []
  | _ :: rest => needle.isPrefixOf hay || jsIncludes rest needle

/-- JS `s.startsWith(pre)`. -/
def jsStartsWith (s pre : JStr) : Bool := pre.isPrefixOf s

/-- JS `s.toLowerCase()` (ASCII range; the claims use ASCII names only). -/
def jsToLower (s : JStr) : JStr := s.map Char.toLower

/-- JS `s.replace(pat, rep)` with a plain-string pattern: first occurrence only. -/
def jsReplaceFirst (pat rep : JStr) : JStr → JStr
  | [] => []
  | c :: cs =>
    if pat.isPrefixOf (c :: cs) then rep ++ (c :: cs).drop pat.length
    else c :: jsReplaceFirst pat rep cs

/-- JS `title.split(' ')[0]` (may be empty when the string starts with a space). -/
def jsFirstWord (s : JStr) : JStr := s.takeWhile (fun c => ¬ (c = ' '))

/-! ## Data model (`src/spec/utils.ts`, interfaces `Task` / `TaskSection`) -/

structure Task where
  id : JStr
  title : JStr
  description : JStr
  completed : Bool
  requirements : List JStr
  subtasks : List JStr
deriving DecidableEq

structure TaskSection where
  title : JStr
  tasks : List Task
deriving DecidableEq

/-! ## Line matchers

`parseTasks` (utils.ts:163) tests each line against
`/^- \[\s*([ x])\s*\] (\d+\. )?(.+)$/`.  After the literal `- [`, the
backtracking search for `\s*([ x])\s*\]` succeeds exactly when the segment `S`
before the first `]` is either (a) all whitespace containing at least one
`' '` (captured group = `' '`), or (b) whitespace, one `'x'`, whitespace
(captured group = `'x'`); then a literal `"] "` and a non-empty remainder must
follow. -/

/-- The `\[\s*([ x])\s*\] ` part of the task regex, applied to the text after
`- [`; returns the captured completed flag and the text after `"] "`. -/
def checkboxMatch (rest : JStr) : Option (Bool × JStr) :=
  let S := rest.takeWhile (fun c => ¬ (c = ']'))
  match rest.dropWhile (fun c => ¬ (c = ']')) with
  | ']' :: ' ' :: t =>
    if S.all isJsSpace then
      if S.contains ' ' then some (false, t) else none
    else
      match S.dropWhile isJsSpace with
      | 'x' :: r => if r.all isJsSpace then some (true, t) else none
      | _ => none
  | _ => none

/-- The optional `(\d+\. )` group followed by `(.+)`: greedy digits, then
literal `". "`, then a non-empty remainder; otherwise the group is unmatched
and the whole text is the title. -/
def splitNumPref (t : JStr) : Option JStr × JStr :=
  let ds := t.takeWhile Char.isDigit
  if ds.isEmpty then (none, t)
  else
    match t.dropWhile Char.isDigit with
    | '.' :: ' ' :: r => if r.isEmpty then (none, t) else (some (ds ++ ['.', ' ']), r)
    | _ => (none, t)

/-- Full task-line regex `/^- \[\s*([ x])\s*\] (\d+\. )?(.+)$/` of
`parseTasks` (utils.ts:163). -/
def taskMatch (line : JStr) : Option (Bool × Option JStr × JStr) :=
  match line with
  | '-' :: ' ' :: '[' :: rest =>
    match checkboxMatch rest with
    | some (completed, t) => if t.isEmpty then none else some (completed, splitNumPref t)
    | none => none
  | _ => none

/-- Task construction from a matched line (utils.ts:169-191). -/
def mkTask (completed : Bool) (numPref : Option JStr) (titleText : JStr) : Task :=
  match numPref with
  | some p =>
    { id := jsTrim (jsReplaceFirst ['.'] [] p)
      title := jsTrim (p ++ titleText)
      description := []
      completed := completed
      requirements := []
      subtasks := [] }
  | none =>
    let w := jsFirstWord titleText
    { id := if w.isEmpty then titleText else w
      title := jsTrim titleText
      description := []
      completed := completed
      requirements := []
      subtasks := [] }

/-- Section-header test `line.startsWith("## ")` (utils.ts:148). -/
def isSectionHeader (line : JStr) : Bool := jsStartsWith line ("## ".toList)

/-- The `_Requirements:` continuation line (utils.ts:201-203):
drop the prefix and following whitespace, drop one trailing underscore,
split on commas, trim each piece. -/
def parseRequirementsLine (trimmed : JStr) : List JStr :=
  let afterPrefix := (trimmed.drop ("_Requirements:".toList).length).dropWhile isJsSpace
  let reqText := if afterPrefix.getLast? = some '_' then afterPrefix.dropLast else afterPrefix
  (reqText.splitOn ',').map jsTrim

/-- Folding one indented continuation line into the current task
(utils.ts:197-217). -/
def applyIndent (t : Task) (trimmed : JStr) : Task :=
  if jsStartsWith trimmed ("_Requirements:".toList) then
    { t with requirements := parseRequirementsLine trimmed }
  else if jsStartsWith trimmed ("- ".toList) ∧ ¬ jsStartsWith trimmed ("- _".toList) then
    { t with subtasks := t.subtasks ++ [trimmed.drop 2] }
  else if ¬ trimmed.isEmpty then
    { t with description :=
        if t.description.isEmpty then trimmed else t.description ++ '\n' :: trimmed }
  else t

/-! ## The parser state machine (`parseTasks`, utils.ts:136-226)

The JS loop mutates `sections` / `currentSection` / `currentTask` with
`currentSection` aliased inside `sections`; here the current section is kept
separate in the state and appended on close, which yields the same output. -/

inductive LineKind where
  | header (title : JStr)
  | task (t : Task)
  | indent (trimmed : JStr)
  | other
deriving DecidableEq

def classifyLine (line : JStr) : LineKind :=
  if isSectionHeader line then .header (jsTrim (line.drop 3))
  else
    match taskMatch line with
    | some (c, pref, titleText) => .task (mkTask c pref titleText)
    | none =>
      if jsStartsWith line ("  ".toList) then .indent (jsTrim line) else .other

structure ParseState where
  finished : List TaskSection
  curSec : Option TaskSection
  curTask : Option Task
deriving DecidableEq

def flushTask (sec : TaskSection) (ct : Option Task) : TaskSection :=
  match ct with
  | some t => { sec with tasks := sec.tasks ++ [t] }
  | none => sec

def parseStep (s : ParseState) (line : JStr) : ParseState :=
  match classifyLine line with
  | .header title =>
    { finished := s.finished ++ (match s.curSec with
        | some sec => [flushTask sec s.curTask]
        | none => [])
      curSec := some ⟨title, []⟩
      curTask := none }
  | .task t =>
    { s with curSec := s.curSec.map (fun sec => flushTask sec s.curTask)
             curTask := some t }
  | .indent trimmed =>
    match s.curTask with
    | some t => { s with curTask := some (applyIndent t trimmed) }
    | none => s
  | .other => s

def initState : ParseState := ⟨[], none, none⟩

def processLines (s : ParseState) (lines : List JStr) : ParseState :=
  lines.foldl parseStep s

def finalizeState (s : ParseState) : List TaskSection :=
  s.finished ++ (match s.curSec with
    | some sec => [flushTask sec s.curTask]
    | none => [])

/-- `parseTasks` on the line list of the document (utils.ts:136-226). -/
def parseTasksLines (lines : List JStr) : List TaskSection :=
  finalizeState (processLines initState lines)

/-- `parseTasks` on document text; `content.split("\n")` is `splitOn '\n'`. -/
def parseTasks (content : JStr) : List TaskSection :=
  parseTasksLines (content.splitOn '\n')

/-! ## Derived queries (utils.ts:228-303) -/

/-- `getAllTasks`: sections' tasks concatenated in order (utils.ts:275-284). -/
def getAllTasksLines (lines : List JStr) : List Task :=
  (parseTasksLines lines).flatMap TaskSection.tasks

/-- `getNextTask`: first incomplete task in flattened order (utils.ts:228-240). -/
def getNextTaskLines (lines : List JStr) : Option Task :=
  (getAllTasksLines lines).find? (fun t => ¬ t.completed)

/-- `getTaskById` (utils.ts:286-289). -/
def getTaskByIdLines (lines : List JStr) (taskId : JStr) : Option Task :=
  (getAllTasksLines lines).find? (fun t => t.id = taskId)

/-- `getIncompleteTasks` (utils.ts:291-294). -/
def getIncompleteTasksLines (lines : List JStr) : List Task :=
  (getAllTasksLines lines).filter (fun t => ¬ t.completed)

structure TaskProgressSummary where
  completed : Nat
  total : Nat
  percentage : Int
deriving DecidableEq

/-- `Math.round` for the non-negative ratios occurring here: half rounds up. -/
def jsMathRound (q : ℚ) : Int := ⌊q + 1 / 2⌋

/-- `getTaskProgress` (utils.ts:296-303): `Math.round((completed/total)*100)`
guarded by `total > 0`.  The floating-point product is represented exactly as
a rational; all quantities are small counts. -/
def getTaskProgress (lines : List JStr) : TaskProgressSummary :=
  let tasks := getAllTasksLines lines
  let completed := (tasks.filter (fun t => t.completed)).length
  let total := tasks.length
  { completed := completed
    total := total
    percentage :=
      if total > 0 then jsMathRound (((completed : ℚ) / (total : ℚ)) * 100) else 0 }

/-! ## `markTaskAsCompleted` (utils.ts:242-273) -/

/-- Unchecked-task-line regex `/^- \[\s*\s*\] (.+)$/` (utils.ts:253):
after `- [`, the greedy `\s*` must reach the first `]` (so the bracket
interior is all whitespace, possibly empty), then `"] "` and a non-empty
title. -/
def uncheckedMatch (line : JStr) : Option JStr :=
  match line with
  | '-' :: ' ' :: '[' :: rest =>
    let S := rest.takeWhile (fun c => ¬ (c = ']'))
    if S.all isJsSpace then
      match rest.dropWhile (fun c => ¬ (c = ']')) with
      | ']' :: ' ' :: t => if t.isEmpty then none else some t
      | _ => none
    else none
  | _ => none

/-- Id derivation in `markTaskAsCompleted` (utils.ts:256-258):
`/^(\d+)\./` capture, else `taskTitle.split(' ')[0]`. -/
def idFromTitle (taskTitle : JStr) : JStr :=
  let ds := taskTitle.takeWhile Char.isDigit
  if ¬ ds.isEmpty = true ∧ (taskTitle.dropWhile Char.isDigit).head? = some '.' then ds
  else jsFirstWord taskTitle

/-- Match test (utils.ts:260): derived id equals the target, or the title
contains the target as a substring. -/
def lineMatchesTaskId (taskTitle taskId : JStr) : Bool :=
  idFromTitle taskTitle = taskId || jsIncludes taskTitle taskId

/-- The `line.replace` call at utils.ts:261, whose pattern is the regex
`- \[\s*\s*\]` and whose replacement is `- [x]`: replace the first
occurrence of `- [`‹whitespace›`]` anywhere in the line by `- [x]`. -/
def matchBoxAt (l : JStr) : Option Nat :=
  match l with
  | '-' :: ' ' :: '[' :: rest =>
    let w := rest.takeWhile isJsSpace
    if (rest.dropWhile isJsSpace).head? = some ']' then some (w.length + 4) else none
  | _ => none

def replaceBox : JStr → JStr
  | [] => []
  | c :: cs =>
    match matchBoxAt (c :: cs) with
    | some n => "- [x]".toList ++ (c :: cs).drop n
    | none => c :: replaceBox cs

/-- `markTaskAsCompleted` on the document's lines (utils.ts:242-273).
`none` models the thrown `Task with ID ... not found or already completed`
error; in that case the source throws before `fs.writeFile`, so the backing
document is untouched.  On success the source writes `lines.join("\n")` with
exactly the matched line replaced. -/
def markTaskAsCompletedLines : List JStr → JStr → Option (List JStr)
  | [], _ => none
  | l :: ls, taskId =>
    match uncheckedMatch l with
    | some taskTitle =>
      if lineMatchesTaskId taskTitle taskId then some (replaceBox l :: ls)
      else (markTaskAsCompletedLines ls taskId).map (fun r => l :: r)
    | none => (markTaskAsCompletedLines ls taskId).map (fun r => l :: r)


/-! ## Fuzzy spec resolution (`fuzzyMatchSpec`, utils.ts:20-72)

Only the matching stage over the list of sub-directory names is modelled;
`fs.readdir`/`fs.stat` supply that list in the source.  The result carries the
matched directory name (the source returns `path.join(specsDir, name)`). -/

inductive SpecMatchResult where
  | found (dir : JStr)
  | ambiguous (candidates : List JStr)
  | notFound
deriving DecidableEq

/-- Candidate test of the fuzzy stage (utils.ts:54-57): the directory name
contains the search term, or the search term contains the directory name,
case-insensitively. -/
def isFuzzyCandidate (lowerSearchTerm : JStr) (dir : JStr) : Bool :=
  jsIncludes (jsToLower dir) lowerSearchTerm || jsIncludes lowerSearchTerm (jsToLower dir)

def fuzzyMatchSpec (searchTerm : JStr) (directories : List JStr) : SpecMatchResult :=
  let lowerSearchTerm := jsToLower searchTerm
  match directories.find? (fun dir => dir = searchTerm) with
  | some d => .found d
  | none =>
    match directories.find? (fun dir => jsToLower dir = lowerSearchTerm) with
    | some d => .found d
    | none =>
      let fuzzyMatches := directories.filter (isFuzzyCandidate lowerSearchTerm)
      if fuzzyMatches.length = 1 ∧ ¬ (fuzzyMatches.headD []).isEmpty = true then
        .found (fuzzyMatches.headD [])
      else if fuzzyMatches.length > 1 then .ambiguous fuzzyMatches
      else .notFound

/-! ## PR context (`getPRContext`, pr-context.ts:8-38) -/

structure PRContext where
  number : Int
  branch : JStr
  commentId : Option JStr
  isEnabled : Bool
deriving DecidableEq

/-- The relevant `process.env` variables; `none` is an unset variable. -/
structure PREnv where
  USTA_PR_MODE : Option JStr
  USTA_PR_NUMBER : Option JStr
  USTA_PR_BRANCH : Option JStr
  USTA_COMMENT_ID : Option JStr
deriving DecidableEq

/-- JS `parseInt(s, 10)`: skip leading whitespace, optional sign, parse
leading decimal digits; `none` models `NaN`. -/
def jsParseInt10 (s : JStr) : Option Int :=
  let digitsVal : JStr → Option Int := fun t =>
    let ds := t.takeWhile Char.isDigit
    if ds.isEmpty then none
    else some (ds.foldl (fun a c => a * 10 + ((c.toNat - '0'.toNat : Nat) : Int)) 0)
  match s.dropWhile isJsSpace with
  | '-' :: t => (digitsVal t).map (fun n => -n)
  | '+' :: t => digitsVal t
  | t => digitsVal t

/-- `getPRContext` also reports whether the missing-context warning was
printed (pr-context.ts:24). -/
structure PRContextResult where
  ctx : PRContext
  warned : Bool
deriving DecidableEq

def getPRContext (env : PREnv) : PRContextResult :=
  let isPRMode := env.USTA_PR_MODE = some ("true".toList)
  if ¬ isPRMode then ⟨⟨0, [], none, false⟩, false⟩
  else
    let prNumber := jsParseInt10 (env.USTA_PR_NUMBER.getD ("0".toList))
    let prBranch := env.USTA_PR_BRANCH.getD []
    let commentId := env.USTA_COMMENT_ID
    if prNumber = none ∨ prNumber = some 0 ∨ prBranch.isEmpty = true then
      ⟨⟨0, [], none, false⟩, true⟩
    else ⟨⟨prNumber.getD 0, prBranch, commentId, true⟩, false⟩

/-! ## Comment manager (`output-capture.ts`, second `CommentManager` variant,
lines 268-567: `TaskProgress` with `completedOnAttempt`) -/

inductive TaskStatus where
  | pending
  | working
  | testing
  | completed
  | failed
deriving DecidableEq

inductive OverallStatus where
  | running
  | completed
  | failed
deriving DecidableEq

/-- `TaskProgress` (output-capture.ts:272-280).  `Date` timestamps are
modelled by presence only (`Option Unit`): the claims do not mention clock
values, and the source logic only tests whether they are set. -/
structure TaskProgress where
  taskId : JStr
  title : JStr
  status : TaskStatus
  startTime : Option Unit
  endTime : Option Unit
  attempt : Nat
  completedOnAttempt : Option Nat
deriving DecidableEq

structure CommentState where
  specName : JStr
  tasks : List TaskProgress
  overallStatus : OverallStatus
  endTime : Option Unit
deriving DecidableEq

/-- Mutate the first list element satisfying `p` (JS `Array.prototype.find`
followed by in-place mutation). -/
def updateFirst (p : α → Bool) (f : α → α) : List α → List α
  | [] => []
  | x :: xs => if p x then f x :: xs else x :: updateFirst p f xs

/-- Field updates of `updateTaskStatus` on the found task
(output-capture.ts:305-324). -/
def applyStatusUpdate (status : TaskStatus) (attempt : Option Nat)
    (t : TaskProgress) : TaskProgress :=
  let t := { t with status := status }
  let t := match attempt with
    | some a => { t with attempt := a }
    | none => t
  match status with
  | .working => if t.startTime = none then { t with startTime := some () } else t
  | .completed =>
    let t := if t.endTime = none then { t with endTime := some () } else t
    { t with completedOnAttempt := some (if t.attempt = 0 then 1 else t.attempt) }
  | .failed => if t.endTime = none then { t with endTime := some () } else t
  | _ => t

/-- `CommentManager.updateTaskStatus` (output-capture.ts:305-324); no-op when
no task carries the id. -/
def updateTaskStatus (st : CommentState) (taskId : JStr) (status : TaskStatus)
    (attempt : Option Nat) : CommentState :=
  let tasks := updateFirst (fun t => t.taskId = taskId) (applyStatusUpdate status attempt) st.tasks
  { st with tasks := tasks }

/-- `CommentManager.setOverallStatus` (output-capture.ts:330-335). -/
def setOverallStatus (st : CommentState) (status : OverallStatus) : CommentState :=
  { st with overallStatus := status
            endTime := if status ≠ .running ∧ st.endTime = none then some () else st.endTime }

/-- Task seeding of `createCommentManager` (output-capture.ts:551-557). -/
def seedTaskProgress (t : Task) : TaskProgress :=
  { taskId := t.id
    title := t.title
    status := if t.completed then .completed else .pending
    startTime := none
    endTime := none
    attempt := 1
    completedOnAttempt := if t.completed then some 1 else none }

def createCommentState (specName : JStr) (allTasks : List Task) : CommentState :=
  { specName := specName
    tasks := allTasks.map seedTaskProgress
    overallStatus := .running
    endTime := none }

/-! ## Progress publication (`updateComment` / `callGitHubAPI`,
output-capture.ts:456-472 and 500-544)

`callGitHubAPI` throws when `GITHUB_TOKEN` is missing and rejects when the
`curl` child process fails; both surface as an `Except.error` here.
`updateComment` renders the report (a pure, total string computation, elided
here and passed as an argument) and wraps the API call in `try`/`catch`,
logging failures.  `Except.error` in the result type is the model of an
exception escaping `updateComment` to its caller. -/

inductive PublishOutcome where
  | skipped
  | updated
  | failedLogged (msg : JStr)
deriving DecidableEq

structure GitHubCallEnv where
  GITHUB_TOKEN : Option JStr
  curlResult : Except JStr JStr

def callGitHubAPI (env : GitHubCallEnv) : Except JStr JStr :=
  match env.GITHUB_TOKEN with
  | none => .error ("GITHUB_TOKEN not available".toList)
  | some _ => env.curlResult

def updateComment (ctx : PRContext) (env : GitHubCallEnv) :
    Except JStr PublishOutcome :=
  if ¬ ctx.isEnabled = true ∨ (ctx.commentId.getD []).isEmpty = true then .ok .skipped
  else
    match callGitHubAPI env with
    | .ok _ => .ok .updated
    | .error e => .ok (.failedLogged ("Failed to update comment: ".toList ++ e))

/-! ## The retry loop of `runUsta` (run-usta.ts:75-209)

One task iteration is modelled.  The external collaborators inside one
attempt (work-agent run, verification-agent run with output capture,
`gitCommitAndPush`) are summarised by an `AttemptOutcome` per attempt number:
an exception during the work phase, an exception during the verification
phase, or a completed verification run with the captured output together with
whether the success-path `gitCommitAndPush` succeeds.  Every error path calls
`gitRollback`; `rollbacks` and `commits` count the gateway invocations. -/

/-- `__TEST_SUCCESS_PHARESE` (prepare-prompt.ts:63). -/
def TEST_SUCCESS_PHARESE : JStr := "__TASK_TEST_COMPLETED__".toList

/-- `TestOutputCapture` (run-usta.ts:27-51). -/
structure TestOutputCapture where
  output : JStr
deriving DecidableEq

def TestOutputCapture.write (c : TestOutputCapture) (data : JStr) : TestOutputCapture :=
  { c with output := c.output ++ data }

def TestOutputCapture.containsTestSuccess (c : TestOutputCapture) : Bool :=
  jsIncludes c.output TEST_SUCCESS_PHARESE

def TestOutputCapture.clear (_ : TestOutputCapture) : TestOutputCapture := ⟨[]⟩

inductive AttemptOutcome where
  | workError
  | testError
  | tested (captured : JStr) (commitOk : Bool)
deriving DecidableEq

structure LoopState where
  mgr : CommentState
  tries : Nat
  taskCompleted : Bool
  rollbacks : Nat
  commits : Nat

/-- One iteration of the `while (tries < 3 && !taskCompleted)` body
(run-usta.ts:89-191). -/
def attemptStep (script : Nat → AttemptOutcome) (taskId : JStr)
    (st : LoopState) : LoopState :=
  let tries := st.tries + 1
  let mgr := updateTaskStatus st.mgr taskId .working (some tries)
  match script tries with
  | .workError =>
    { st with tries := tries, mgr := mgr, rollbacks := st.rollbacks + 1 }
  | .testError =>
    { st with tries := tries
              mgr := updateTaskStatus mgr taskId .testing none
              rollbacks := st.rollbacks + 1 }
  | .tested captured commitOk =>
    let mgr := updateTaskStatus mgr taskId .testing none
    let testCapture := (TestOutputCapture.clear ⟨[]⟩).write captured
    if testCapture.containsTestSuccess = true then
      if commitOk = true then
        { st with tries := tries
                  mgr := updateTaskStatus mgr taskId .completed none
                  commits := st.commits + 1
                  taskCompleted := true }
      else
        { st with tries := tries, mgr := mgr, rollbacks := st.rollbacks + 1 }
    else
      { st with tries := tries, mgr := mgr, rollbacks := st.rollbacks + 1 }

/-- The retry loop; the guard is literally `tries < 3 && !taskCompleted`, so
fuel 3 from `tries = 0` is exact. -/
def runRetryLoop (script : Nat → AttemptOutcome) (taskId : JStr) :
    Nat → LoopState → LoopState
  | 0, st => st
  | fuel + 1, st =>
    if st.tries < 3 ∧ st.taskCompleted = false then
      runRetryLoop script taskId fuel (attemptStep script taskId st)
    else st

structure TaskRunResult where
  mgr : CommentState
  tries : Nat
  taskCompleted : Bool
  rollbacks : Nat
  commits : Nat
  exitedNonZero : Bool

/-- Loop entry state: the task was just reported `working` (run-usta.ts:79)
and no attempt has run. -/
def initLoopState (mgr0 : CommentState) (taskId : JStr) : LoopState :=
  { mgr := updateTaskStatus mgr0 taskId .working none
    tries := 0
    taskCompleted := false
    rollbacks := 0
    commits := 0 }

/-- After the loop (run-usta.ts:193-208): on exhaustion mark the task
`failed`, set the overall status `failed` and `process.exit(1)`. -/
def finishTask (taskId : JStr) (st : LoopState) : TaskRunResult :=
  if st.taskCompleted = true then
    { mgr := st.mgr, tries := st.tries, taskCompleted := true
      rollbacks := st.rollbacks, commits := st.commits, exitedNonZero := false }
  else
    { mgr := setOverallStatus (updateTaskStatus st.mgr taskId .failed none) .failed
      tries := st.tries, taskCompleted := false
      rollbacks := st.rollbacks, commits := st.commits, exitedNonZero := true }

/-- One whole task iteration of `runUsta` (run-usta.ts:75-209). -/
def runUstaTask (script : Nat → AttemptOutcome) (taskId : JStr)
    (mgr0 : CommentState) : TaskRunResult :=
  finishTask taskId (runRetryLoop script taskId 3 (initLoopState mgr0 taskId))

/-- Whether an attempt outcome carries the success marker in the captured
verification output. -/
def emitsMarker : AttemptOutcome → Bool
  | .tested captured _ => jsIncludes captured TEST_SUCCESS_PHARESE
  | _ => false

/-- The reporter entry for a given task id (`find` in
`updateTaskStatus`, output-capture.ts:306). -/
def findTask (st : CommentState) (taskId : JStr) : Option TaskProgress :=
  st.tasks.find? (fun t => t.taskId = taskId)

/-- Number of `completed = true` tasks in the parse of a document. -/
def completedCount (lines : List JStr) : Nat :=
  (getAllTasksLines lines).countP (fun t => t.completed)

example :
    parseTasksLines ["## A".toList, "- [ ] 1. Do X".toList] =
      [⟨"A".toList,
        [⟨"1".toList, "1. Do X".toList, [], false, [], []⟩]⟩] := by decide

example :
    markTaskAsCompletedLines ["## A".toList, "- [ ] 1. Do X".toList] "1".toList =
      some ["## A".toList, "- [x] 1. Do X".toList] := by decide


/-! ## Infrastructure for the round-trip claim (C3)

`stCount` is the number of `completed` tasks a parser state will contribute to
the final output once a section is open; `checkedLineCount` counts the checked
task lines of the remaining input; `lineTaskSig` is the (completed, id)
signature a task line creates, which indented continuation lines never
change. -/

def secsCount (secs : List TaskSection) : Nat :=
  (secs.flatMap TaskSection.tasks).countP (fun t => t.completed)

def stCount (s : ParseState) : Nat :=
  secsCount s.finished +
    (match s.curSec with
     | some sec => sec.tasks.countP (fun t => t.completed) +
        (match s.curTask with
         | some t => if t.completed = true then 1 else 0
         | none => 0)
     | none => 0)

def checkedLineCount (lines : List JStr) : Nat :=
  lines.countP (fun l =>
    match classifyLine l with
    | .task t => t.completed
    | _ => false)

def lineTaskSig (l : JStr) : Option (Bool × JStr) :=
  match taskMatch l with
  | some (c, pref, titleText) => some (c, (mkTask c pref titleText).id)
  | none => none

def stateHasSig (s : ParseState) (c : Bool) (id : JStr) : Prop :=
  (∃ sec ∈ s.finished, ∃ t ∈ sec.tasks, t.completed = c ∧ t.id = id) ∨
  (∃ sec, s.curSec = some sec ∧ ∃ t ∈ sec.tasks, t.completed = c ∧ t.id = id) ∨
  (∃ t0, s.curTask = some t0 ∧ t0.completed = c ∧ t0.id = id)

/-! ## Claim C4: the sample document -/

/-- C4: parsing the document
`"## A\n\n- [ ] 1. Do X\n  - sub one\n  - sub two\n  _Requirements: 1.1, 1.2_\n"`
yields exactly one section titled "A" containing exactly one task with id "1",
title "1. Do X", completed = false, subtasks = ["sub one", "sub two"] and
requirements = ["1.1", "1.2"]. -/
theorem c4_sample_document_parse :
    parseTasks
      ("## A\n\n- [ ] 1. Do X\n  - sub one\n  - sub two\n  _Requirements: 1.1, 1.2_\n".toList) =
    [{ title := "A".toList
       tasks := [{ id := "1".toList
                   title := "1. Do X".toList
                   description := []
                   completed := false
                   requirements := ["1.1".toList, "1.2".toList]
                   subtasks := ["sub one".toList, "sub two".toList] }] }] := by decide

/-! ## Claim C7: progress arithmetic -/

/-- C7: `getTaskProgress` returns the number of completed tasks, the total
task count, the exact integer rounding of `100 * completed / total` when
`total > 0`, and `completed = 0`, `percentage = 0` when `total = 0` (the
division is guarded, so no division by zero occurs). -/
theorem c7_progress_percentage (lines : List JStr) :
    (getTaskProgress lines).completed =
      ((getAllTasksLines lines).filter (fun t => t.completed)).length ∧
    (getTaskProgress lines).total = (getAllTasksLines lines).length ∧
    ((getTaskProgress lines).total > 0 →
      (getTaskProgress lines).percentage =
        round ((100 * ((getTaskProgress lines).completed : ℚ)) /
          ((getTaskProgress lines).total : ℚ))) ∧
    ((getTaskProgress lines).total = 0 →
      (getTaskProgress lines).completed = 0 ∧ (getTaskProgress lines).percentage = 0) := by
  refine ⟨rfl, rfl, ?_, ?_⟩
  · intro hpos
    have hpos' : (getAllTasksLines lines).length > 0 := hpos
    simp only [getTaskProgress, jsMathRound, hpos', if_pos]
    rw [round_eq]
    congr 1
    field_simp
    ring
  · intro hzero
    have hlen : (getAllTasksLines lines).length = 0 := hzero
    have hnil : getAllTasksLines lines = [] := List.length_eq_zero.mp hlen
    constructor
    · simp [getTaskProgress, hnil]
    · simp [getTaskProgress, hnil]

/-- C7 witness: a concrete document with 3 tasks, one completed. -/
theorem c7_progress_percentage_witness :
    (getTaskProgress ["## A".toList, "- [x] 1. a".toList, "- [ ] 2. b".toList,
        "- [ ] 3. c".toList]).total > 0 ∧
    (getTaskProgress ["## A".toList, "- [x] 1. a".toList, "- [ ] 2. b".toList,
        "- [ ] 3. c".toList]).percentage =
      round ((100 * ((getTaskProgress ["## A".toList, "- [x] 1. a".toList,
        "- [ ] 2. b".toList, "- [ ] 3. c".toList]).completed : ℚ)) /
        ((getTaskProgress ["## A".toList, "- [x] 1. a".toList, "- [ ] 2. b".toList,
          "- [ ] 3. c".toList]).total : ℚ)) :=
  ⟨by decide, (c7_progress_percentage ["## A".toList, "- [x] 1. a".toList,
    "- [ ] 2. b".toList, "- [ ] 3. c".toList]).2.2.1 (by decide)⟩

/-! ## Claim C5: markComplete failure leaves the document alone -/

/-- C5: when no unchecked checkbox line matches the id (by derived-id
equality or title-substring containment), `markTaskAsCompleted` fails
(`none` here models the thrown `not found or already completed` error) and,
since the source throws before `fs.writeFile`, the backing document is not
written at all. -/
theorem c5_mark_complete_no_match_fails (lines : List JStr) (taskId : JStr)
    (h : lines.all (fun l =>
        match uncheckedMatch l with
        | some taskTitle => ! lineMatchesTaskId taskTitle taskId
        | none => true) = true) :
    markTaskAsCompletedLines lines taskId = none := by
  induction lines with
  | nil => rfl
  | cons l ls ih =>
    rw [List.all_cons, Bool.and_eq_true] at h
    obtain ⟨hl, hls⟩ := h
    cases hm : uncheckedMatch l with
    | none =>
      simp only [markTaskAsCompletedLines, hm, ih hls, Option.map_none']
    | some taskTitle =>
      rw [hm] at hl
      simp only [Bool.not_eq_true'] at hl
      simp only [markTaskAsCompletedLines, hm, hl, Bool.false_eq_true, if_false,
        ih hls, Option.map_none']

/-- C5 witness: id "999" matches neither the checked line nor the unchecked
line of a concrete document. -/
theorem c5_mark_complete_no_match_fails_witness :
    markTaskAsCompletedLines
      ["## A".toList, "- [x] 1. Done".toList, "- [ ] 2. Open".toList]
      ("999".toList) = none :=
  c5_mark_complete_no_match_fails _ _ (by decide)

/-! ## Claim C6: fuzzy spec resolution -/

/-- C6 counterexample: search term "abc" and a single directory "ab".  Exact
and case-insensitive matching fail and no directory name contains the search
term, so the claim requires a not-found failure; the code nevertheless
resolves to "ab" because the containment test also runs in the opposite
direction (term contains directory). -/
theorem c6_fuzzy_counterexample :
    ("ab".toList ≠ "abc".toList) ∧
    (jsToLower ("ab".toList) ≠ jsToLower ("abc".toList)) ∧
    jsIncludes (jsToLower ("ab".toList)) (jsToLower ("abc".toList)) = false ∧
    fuzzyMatchSpec ("abc".toList) ["ab".toList] = .found ("ab".toList) := by decide

/-- C6 (amended): with the candidate set computed by bidirectional
case-insensitive containment (directory name contains the term, or the term
contains the directory name), and exact plus case-insensitive matching
failing: a unique candidate with a non-empty name resolves to it; two or more
candidates fail with the error enumerating all of them; no candidate fails
with not-found. -/
theorem c6_fuzzy_resolution_amended (searchTerm : JStr) (directories : List JStr)
    (hex : ∀ d ∈ directories, ¬ d = searchTerm)
    (hci : ∀ d ∈ directories, ¬ jsToLower d = jsToLower searchTerm) :
    (∀ d, directories.filter (isFuzzyCandidate (jsToLower searchTerm)) = [d] →
      ¬ d.isEmpty = true → fuzzyMatchSpec searchTerm directories = .found d) ∧
    ((directories.filter (isFuzzyCandidate (jsToLower searchTerm))).length > 1 →
      fuzzyMatchSpec searchTerm directories =
        .ambiguous (directories.filter (isFuzzyCandidate (jsToLower searchTerm)))) ∧
    (directories.filter (isFuzzyCandidate (jsToLower searchTerm)) = [] →
      fuzzyMatchSpec searchTerm directories = .notFound) := by
  have h1 : directories.find? (fun dir => dir = searchTerm) = none := by
    rw [List.find?_eq_none]
    intro d hd
    simp only [decide_eq_true_eq]
    exact hex d hd
  have h2 : directories.find? (fun dir => jsToLower dir = jsToLower searchTerm) = none := by
    rw [List.find?_eq_none]
    intro d hd
    simp only [decide_eq_true_eq]
    exact hci d hd
  simp only [fuzzyMatchSpec, h1, h2]
  refine ⟨?_, ?_, ?_⟩
  · intro d hfz hne
    rw [hfz]
    rw [if_pos ⟨by simp, hne⟩]
    rfl
  · intro hlen
    rw [if_neg (fun hc => by omega), if_pos hlen]
  · intro hfz
    rw [hfz]
    rfl

/-- C6 amended witness: one candidate resolves. -/
theorem c6_fuzzy_resolution_amended_witness :
    fuzzyMatchSpec ("spec".toList) ["other-dir".toList, "my-spec-dir".toList] =
      .found ("my-spec-dir".toList) :=
  (c6_fuzzy_resolution_amended ("spec".toList) ["other-dir".toList, "my-spec-dir".toList]
    (by decide) (by decide)).1 ("my-spec-dir".toList) (by decide) (by decide)

/-! ## Claim C8: PR context construction -/

/-- C8: `getPRContext` enables the context exactly when the run is flagged
with `USTA_PR_MODE = "true"`, the PR number parses to a non-zero value, and
the branch is a non-empty string; when the flag is set but a required field
is missing, zero, or empty, it returns the disabled context together with the
warning.  The function is total, so no exception can be thrown. -/
theorem c8_pr_context_enabled_iff (env : PREnv) :
    ((getPRContext env).ctx.isEnabled = true ↔
      (env.USTA_PR_MODE = some ("true".toList) ∧
       (∃ n, jsParseInt10 (env.USTA_PR_NUMBER.getD ("0".toList)) = some n ∧ n ≠ 0) ∧
       ¬ (env.USTA_PR_BRANCH.getD []).isEmpty = true)) ∧
    (env.USTA_PR_MODE = some ("true".toList) → (getPRContext env).ctx.isEnabled = false →
      (getPRContext env).warned = true ∧
      (getPRContext env).ctx = ⟨0, [], none, false⟩) := by
  by_cases hmode : env.USTA_PR_MODE = some ("true".toList)
  · by_cases hbad : jsParseInt10 (env.USTA_PR_NUMBER.getD ("0".toList)) = none ∨
        jsParseInt10 (env.USTA_PR_NUMBER.getD ("0".toList)) = some 0 ∨
        (env.USTA_PR_BRANCH.getD []).isEmpty = true
    · have hctx : getPRContext env = ⟨⟨0, [], none, false⟩, true⟩ := by
        simp only [getPRContext]
        rw [if_neg (by simp [hmode]), if_pos hbad]
      rw [hctx]
      refine ⟨⟨fun h => absurd h (by simp), ?_⟩, fun _ _ => ⟨rfl, rfl⟩⟩
      rintro ⟨-, ⟨n, hn, hnz⟩, hbr⟩
      exfalso
      rcases hbad with h | h | h
      · rw [h] at hn; cases hn
      · rw [h] at hn
        exact hnz (Option.some.inj hn).symm
      · exact hbr h
    · have hbad' := hbad
      push_neg at hbad'
      obtain ⟨hne, hnz, hbr⟩ := hbad'
      have hctx : getPRContext env =
          ⟨⟨(jsParseInt10 (env.USTA_PR_NUMBER.getD ("0".toList))).getD 0,
            env.USTA_PR_BRANCH.getD [], env.USTA_COMMENT_ID, true⟩, false⟩ := by
        simp only [getPRContext]
        rw [if_neg (by simp [hmode]), if_neg hbad]
      rw [hctx]
      refine ⟨⟨fun _ => ⟨hmode, ?_, hbr⟩, fun _ => rfl⟩, fun _ h => by cases h⟩
      cases hv : jsParseInt10 (env.USTA_PR_NUMBER.getD ("0".toList)) with
      | none => exact absurd hv hne
      | some n => exact ⟨n, rfl, fun h0 => hnz (by rw [hv, h0])⟩
  · have hctx : getPRContext env = ⟨⟨0, [], none, false⟩, false⟩ := by
      simp only [getPRContext]
      rw [if_pos (by simpa using hmode)]
    rw [hctx]
    refine ⟨⟨fun h => absurd h (by simp), ?_⟩, fun hm => absurd hm hmode⟩
    rintro ⟨hm, -, -⟩
    exact absurd hm hmode

/-- C8 witness: PR mode flagged but number unset resolves to the disabled
context with the warning. -/
theorem c8_pr_context_enabled_iff_witness :
    (getPRContext ⟨some ("true".toList), none, some ("main".toList), none⟩).warned = true ∧
    (getPRContext ⟨some ("true".toList), none, some ("main".toList), none⟩).ctx =
      ⟨0, [], none, false⟩ :=
  (c8_pr_context_enabled_iff ⟨some ("true".toList), none, some ("main".toList), none⟩).2
    rfl (by decide)

/-! ## Claim C9: progress publication never escalates -/

/-- C9: `updateComment` never lets an error reach its caller: it returns
without any API interaction when the context is disabled or carries no
comment id, and when the send is attempted and the underlying call fails
(including the missing `GITHUB_TOKEN` case), the failure is caught and
logged (`failedLogged`), never rethrown (the result is always `Except.ok`). -/
theorem c9_publish_never_throws (ctx : PRContext) (env : GitHubCallEnv) :
    (∃ r, updateComment ctx env = .ok r) ∧
    ((ctx.isEnabled = false ∨ (ctx.commentId.getD []).isEmpty = true) →
      updateComment ctx env = .ok .skipped) ∧
    (ctx.isEnabled = true → (ctx.commentId.getD []).isEmpty = false →
      ∀ e, callGitHubAPI env = .error e →
        updateComment ctx env =
          .ok (.failedLogged ("Failed to update comment: ".toList ++ e))) := by
  unfold updateComment
  by_cases hskip : ¬ ctx.isEnabled = true ∨ (ctx.commentId.getD []).isEmpty = true
  · rw [if_pos hskip]
    refine ⟨⟨.skipped, rfl⟩, fun _ => rfl, ?_⟩
    intro hen hid e _
    rcases hskip with h | h
    · exact absurd hen h
    · rw [hid] at h; cases h
  · rw [if_neg hskip]
    push_neg at hskip
    obtain ⟨hen, hid⟩ := hskip
    refine ⟨?_, ?_, ?_⟩
    · cases hc : callGitHubAPI env with
      | ok v => exact ⟨.updated, rfl⟩
      | error e => exact ⟨.failedLogged ("Failed to update comment: ".toList ++ e), rfl⟩
    · intro habs
      rcases habs with h | h
      · rw [h] at hen; exact Bool.noConfusion hen
      · exact absurd h hid
    · intro _ _ e hc
      rw [hc]

/-- C9 witness: enabled context with a comment id but no auth token: the
failure is caught and logged. -/
theorem c9_publish_never_throws_witness :
    updateComment ⟨12, "b".toList, some ("5".toList), true⟩ ⟨none, .ok []⟩ =
      .ok (.failedLogged
        (("Failed to update comment: ".toList) ++ ("GITHUB_TOKEN not available".toList))) :=
  (c9_publish_never_throws ⟨12, "b".toList, some ("5".toList), true⟩ ⟨none, .ok []⟩).2.2
    rfl (by decide) _ rfl

/-! ## Claims C1 and C2: the retry state machine -/

theorem applyStatusUpdate_taskId (s : TaskStatus) (a : Option Nat) (t : TaskProgress) :
    (applyStatusUpdate s a t).taskId = t.taskId := by
  unfold applyStatusUpdate
  cases s <;> cases a <;> dsimp only <;> (try split) <;> rfl

theorem applyStatusUpdate_status (s : TaskStatus) (a : Option Nat) (t : TaskProgress) :
    (applyStatusUpdate s a t).status = s := by
  unfold applyStatusUpdate
  cases s <;> cases a <;> dsimp only <;> (try split) <;> rfl

theorem applyStatusUpdate_attempt_some (s : TaskStatus) (a : Nat) (t : TaskProgress) :
    (applyStatusUpdate s (some a) t).attempt = a := by
  unfold applyStatusUpdate
  cases s <;> dsimp only <;> (try split) <;> rfl

theorem applyStatusUpdate_attempt_none (s : TaskStatus) (t : TaskProgress) :
    (applyStatusUpdate s none t).attempt = t.attempt := by
  unfold applyStatusUpdate
  cases s <;> dsimp only <;> (try split) <;> rfl

theorem applyStatusUpdate_completedOn (t : TaskProgress) :
    (applyStatusUpdate .completed none t).completedOnAttempt =
      some (if t.attempt = 0 then 1 else t.attempt) := by
  unfold applyStatusUpdate
  dsimp only
  split <;> rfl

theorem find?_updateFirst {α : Type} (p : α → Bool) (f : α → α)
    (hf : ∀ x, p x = true → p (f x) = true) (ls : List α) :
    (updateFirst p f ls).find? p = (ls.find? p).map f := by
  induction ls with
  | nil => rfl
  | cons x xs ih =>
    by_cases hx : p x = true
    · simp [updateFirst, hx, List.find?_cons_of_pos, hf x hx]
    · have hx' : p x = false := by simpa using hx
      simp [updateFirst, hx', List.find?_cons_of_neg, ih]

theorem findTask_updateTaskStatus (st : CommentState) (taskId : JStr)
    (s : TaskStatus) (a : Option Nat) :
    findTask (updateTaskStatus st taskId s a) taskId =
      (findTask st taskId).map (applyStatusUpdate s a) := by
  unfold findTask updateTaskStatus
  exact find?_updateFirst _ _
    (fun x hx => by
      simp only [decide_eq_true_eq] at hx ⊢
      rw [applyStatusUpdate_taskId, hx]) _

theorem findTask_isSome_updateTaskStatus (st : CommentState) (taskId : JStr)
    (s : TaskStatus) (a : Option Nat) :
    (findTask (updateTaskStatus st taskId s a) taskId).isSome =
      (findTask st taskId).isSome := by
  rw [findTask_updateTaskStatus]
  cases findTask st taskId <;> rfl

theorem findTask_setOverallStatus (st : CommentState) (s : OverallStatus) (taskId : JStr) :
    findTask (setOverallStatus st s) taskId = findTask st taskId := rfl

theorem attemptStep_fail (script : Nat → AttemptOutcome) (taskId : JStr)
    (st : LoopState) (h : emitsMarker (script (st.tries + 1)) = false) :
    (attemptStep script taskId st).tries = st.tries + 1 ∧
    (attemptStep script taskId st).taskCompleted = st.taskCompleted ∧
    (attemptStep script taskId st).rollbacks = st.rollbacks + 1 ∧
    (attemptStep script taskId st).commits = st.commits ∧
    (findTask (attemptStep script taskId st).mgr taskId).isSome =
      (findTask st.mgr taskId).isSome := by
  unfold attemptStep
  dsimp only
  cases hs : script (st.tries + 1) with
  | workError =>
    exact ⟨rfl, rfl, rfl, rfl, findTask_isSome_updateTaskStatus _ _ _ _⟩
  | testError =>
    refine ⟨rfl, rfl, rfl, rfl, ?_⟩
    rw [findTask_isSome_updateTaskStatus, findTask_isSome_updateTaskStatus]
  | tested captured commitOk =>
    rw [hs] at h
    have hmk : ((TestOutputCapture.clear ⟨[]⟩).write captured).containsTestSuccess = false := by
      simpa [TestOutputCapture.clear, TestOutputCapture.write,
        TestOutputCapture.containsTestSuccess, emitsMarker] using h
    dsimp only
    rw [hmk, if_neg Bool.false_ne_true]
    exact ⟨rfl, rfl, rfl, rfl, by
      rw [findTask_isSome_updateTaskStatus, findTask_isSome_updateTaskStatus]⟩

theorem runRetryLoop_succ (script : Nat → AttemptOutcome) (taskId : JStr)
    (fuel : Nat) (st : LoopState) :
    runRetryLoop script taskId (fuel + 1) st =
      if st.tries < 3 ∧ st.taskCompleted = false then
        runRetryLoop script taskId fuel (attemptStep script taskId st)
      else st := rfl

theorem attemptStep_congr (script script' : Nat → AttemptOutcome) (taskId : JStr)
    (st : LoopState) (h : script' (st.tries + 1) = script (st.tries + 1)) :
    attemptStep script' taskId st = attemptStep script taskId st := by
  unfold attemptStep
  dsimp only
  rw [h]

/-- C1: when the verification agent never emits the success marker, the
retry loop performs exactly 3 attempts, the task's reporter status becomes
`failed`, the overall status becomes `failed`, and the process exits
non-zero; no fourth attempt occurs (the whole run is determined by the
outcomes of attempts 1-3 alone). -/
theorem c1_no_marker_three_attempts_then_failed (script : Nat → AttemptOutcome)
    (taskId : JStr) (mgr0 : CommentState)
    (hpresent : (findTask mgr0 taskId).isSome = true)
    (h1 : emitsMarker (script 1) = false)
    (h2 : emitsMarker (script 2) = false)
    (h3 : emitsMarker (script 3) = false) :
    (runUstaTask script taskId mgr0).tries = 3 ∧
    (runUstaTask script taskId mgr0).taskCompleted = false ∧
    (runUstaTask script taskId mgr0).exitedNonZero = true ∧
    (runUstaTask script taskId mgr0).rollbacks = 3 ∧
    (runUstaTask script taskId mgr0).mgr.overallStatus = .failed ∧
    (∃ tp, findTask (runUstaTask script taskId mgr0).mgr taskId = some tp ∧
      tp.status = .failed) ∧
    (∀ script' : Nat → AttemptOutcome, script' 1 = script 1 → script' 2 = script 2 →
      script' 3 = script 3 →
      runUstaTask script' taskId mgr0 = runUstaTask script taskId mgr0) := by
  obtain ⟨e1t, e1c, e1r, e1m, e1s⟩ :=
    attemptStep_fail script taskId (initLoopState mgr0 taskId) h1
  have h1t : (attemptStep script taskId (initLoopState mgr0 taskId)).tries = 1 := by
    rw [e1t]; rfl
  have h1c : (attemptStep script taskId (initLoopState mgr0 taskId)).taskCompleted = false := by
    rw [e1c]; rfl
  have h1r : (attemptStep script taskId (initLoopState mgr0 taskId)).rollbacks = 1 := by
    rw [e1r]; rfl
  obtain ⟨e2t, e2c, e2r, e2m, e2s⟩ :=
    attemptStep_fail script taskId (attemptStep script taskId (initLoopState mgr0 taskId))
      (by rw [h1t]; exact h2)
  have h2t : (attemptStep script taskId (attemptStep script taskId
      (initLoopState mgr0 taskId))).tries = 2 := by rw [e2t, h1t]
  have h2c : (attemptStep script taskId (attemptStep script taskId
      (initLoopState mgr0 taskId))).taskCompleted = false := by rw [e2c, h1c]
  have h2r : (attemptStep script taskId (attemptStep script taskId
      (initLoopState mgr0 taskId))).rollbacks = 2 := by rw [e2r, h1r]
  obtain ⟨e3t, e3c, e3r, e3m, e3s⟩ :=
    attemptStep_fail script taskId (attemptStep script taskId (attemptStep script taskId
      (initLoopState mgr0 taskId))) (by rw [h2t]; exact h3)
  have h3t : (attemptStep script taskId (attemptStep script taskId (attemptStep script taskId
      (initLoopState mgr0 taskId)))).tries = 3 := by rw [e3t, h2t]
  have h3c : (attemptStep script taskId (attemptStep script taskId (attemptStep script taskId
      (initLoopState mgr0 taskId)))).taskCompleted = false := by rw [e3c, h2c]
  have h3r : (attemptStep script taskId (attemptStep script taskId (attemptStep script taskId
      (initLoopState mgr0 taskId)))).rollbacks = 3 := by rw [e3r, h2r]
  have h0s : (findTask (initLoopState mgr0 taskId).mgr taskId).isSome = true := by
    rw [show (initLoopState mgr0 taskId).mgr = updateTaskStatus mgr0 taskId .working none
      from rfl, findTask_isSome_updateTaskStatus]
    exact hpresent
  have h3s : (findTask (attemptStep script taskId (attemptStep script taskId
      (attemptStep script taskId (initLoopState mgr0 taskId)))).mgr taskId).isSome = true := by
    rw [e3s, e2s, e1s, h0s]
  have hloop : runRetryLoop script taskId 3 (initLoopState mgr0 taskId) =
      attemptStep script taskId (attemptStep script taskId (attemptStep script taskId
        (initLoopState mgr0 taskId))) := by
    rw [show (3 : Nat) = 2 + 1 from rfl, runRetryLoop_succ,
      if_pos ⟨by rw [show (initLoopState mgr0 taskId).tries = 0 from rfl]; omega, rfl⟩]
    rw [show (2 : Nat) = 1 + 1 from rfl, runRetryLoop_succ,
      if_pos ⟨by rw [h1t]; omega, h1c⟩]
    rw [show (1 : Nat) = 0 + 1 from rfl, runRetryLoop_succ,
      if_pos ⟨by rw [h2t]; omega, h2c⟩]
    rfl
  have hrun : runUstaTask script taskId mgr0 =
      finishTask taskId (attemptStep script taskId (attemptStep script taskId
        (attemptStep script taskId (initLoopState mgr0 taskId)))) := by
    unfold runUstaTask
    rw [hloop]
  have hfin : finishTask taskId (attemptStep script taskId (attemptStep script taskId
      (attemptStep script taskId (initLoopState mgr0 taskId)))) =
      { mgr := setOverallStatus (updateTaskStatus (attemptStep script taskId
          (attemptStep script taskId (attemptStep script taskId
            (initLoopState mgr0 taskId)))).mgr taskId .failed none) .failed
        tries := (attemptStep script taskId (attemptStep script taskId (attemptStep script
          taskId (initLoopState mgr0 taskId)))).tries
        taskCompleted := false
        rollbacks := (attemptStep script taskId (attemptStep script taskId (attemptStep
          script taskId (initLoopState mgr0 taskId)))).rollbacks
        commits := (attemptStep script taskId (attemptStep script taskId (attemptStep
          script taskId (initLoopState mgr0 taskId)))).commits
        exitedNonZero := true } := by
    unfold finishTask
    rw [h3c, if_neg Bool.false_ne_true]
  rw [hrun, hfin]
  refine ⟨h3t, rfl, rfl, h3r, rfl, ?_, ?_⟩
  · rw [findTask_setOverallStatus, findTask_updateTaskStatus]
    cases hv : findTask (attemptStep script taskId (attemptStep script taskId (attemptStep
        script taskId (initLoopState mgr0 taskId)))).mgr taskId with
    | none => rw [hv] at h3s; cases h3s
    | some tp =>
      exact ⟨applyStatusUpdate .failed none tp, rfl, applyStatusUpdate_status _ _ _⟩
  · intro script' hq1 hq2 hq3
    have q1 : attemptStep script' taskId (initLoopState mgr0 taskId) =
        attemptStep script taskId (initLoopState mgr0 taskId) :=
      attemptStep_congr script script' taskId (initLoopState mgr0 taskId)
        (by rw [show (initLoopState mgr0 taskId).tries + 1 = 1 from rfl, hq1])
    have q2 : attemptStep script' taskId (attemptStep script taskId
          (initLoopState mgr0 taskId)) =
        attemptStep script taskId (attemptStep script taskId (initLoopState mgr0 taskId)) :=
      attemptStep_congr script script' taskId _ (by rw [h1t]; exact hq2)
    have q3 : attemptStep script' taskId (attemptStep script taskId (attemptStep script
          taskId (initLoopState mgr0 taskId))) =
        attemptStep script taskId (attemptStep script taskId (attemptStep script taskId
          (initLoopState mgr0 taskId))) :=
      attemptStep_congr script script' taskId _ (by rw [h2t]; exact hq3)
    have hloop' : runRetryLoop script' taskId 3 (initLoopState mgr0 taskId) =
        attemptStep script taskId (attemptStep script taskId (attemptStep script taskId
          (initLoopState mgr0 taskId))) := by
      rw [show (3 : Nat) = 2 + 1 from rfl, runRetryLoop_succ,
        if_pos ⟨by rw [show (initLoopState mgr0 taskId).tries = 0 from rfl]; omega, rfl⟩, q1]
      rw [show (2 : Nat) = 1 + 1 from rfl, runRetryLoop_succ,
        if_pos ⟨by rw [h1t]; omega, h1c⟩, q2]
      rw [show (1 : Nat) = 0 + 1 from rfl, runRetryLoop_succ,
        if_pos ⟨by rw [h2t]; omega, h2c⟩, q3]
      rfl
    unfold runUstaTask
    rw [hloop', hfin]

/-- C1 witness: a scripted agent whose verification output never contains
the marker. -/
theorem c1_no_marker_three_attempts_then_failed_witness :
    (runUstaTask (fun _ => .tested ("not done".toList) true) ("1".toList)
      (createCommentState ("s".toList)
        [⟨"1".toList, "1. T".toList, [], false, [], []⟩])).tries = 3 ∧
    (runUstaTask (fun _ => .tested ("not done".toList) true) ("1".toList)
      (createCommentState ("s".toList)
        [⟨"1".toList, "1. T".toList, [], false, [], []⟩])).exitedNonZero = true := by
  have h := c1_no_marker_three_attempts_then_failed
    (fun _ => .tested ("not done".toList) true) ("1".toList)
    (createCommentState ("s".toList) [⟨"1".toList, "1. T".toList, [], false, [], []⟩])
    (by decide) (by decide) (by decide) (by decide)
  exact ⟨h.1, h.2.2.1⟩

theorem attemptStep_tested_nomarker (script : Nat → AttemptOutcome) (taskId : JStr)
    (st : LoopState) (captured : JStr) (commitOk : Bool)
    (hs : script (st.tries + 1) = .tested captured commitOk)
    (hm : jsIncludes captured TEST_SUCCESS_PHARESE = false) :
    attemptStep script taskId st =
      { st with
          mgr := updateTaskStatus (updateTaskStatus st.mgr taskId .working
            (some (st.tries + 1))) taskId .testing none
          tries := st.tries + 1
          rollbacks := st.rollbacks + 1 } := by
  unfold attemptStep
  dsimp only
  rw [hs]
  have hmk : ((TestOutputCapture.clear ⟨[]⟩).write captured).containsTestSuccess = false := by
    simpa [TestOutputCapture.clear, TestOutputCapture.write,
      TestOutputCapture.containsTestSuccess] using hm
  dsimp only
  rw [hmk, if_neg Bool.false_ne_true]

theorem attemptStep_tested_marker_commit (script : Nat → AttemptOutcome) (taskId : JStr)
    (st : LoopState) (captured : JStr)
    (hs : script (st.tries + 1) = .tested captured true)
    (hm : jsIncludes captured TEST_SUCCESS_PHARESE = true) :
    attemptStep script taskId st =
      { st with
          mgr := updateTaskStatus (updateTaskStatus (updateTaskStatus st.mgr taskId
            .working (some (st.tries + 1))) taskId .testing none) taskId .completed none
          tries := st.tries + 1
          commits := st.commits + 1
          taskCompleted := true } := by
  unfold attemptStep
  dsimp only
  rw [hs]
  have hmk : ((TestOutputCapture.clear ⟨[]⟩).write captured).containsTestSuccess = true := by
    simpa [TestOutputCapture.clear, TestOutputCapture.write,
      TestOutputCapture.containsTestSuccess] using hm
  dsimp only
  rw [hmk, if_pos rfl, if_pos rfl]

/-- C2: when verification fails with the marker absent (and no exception) on
attempts 1 and 2 and succeeds on attempt 3, the task ends `completed` with
`completedOnAttempt = 3`, and the rollback operation is invoked exactly
twice. -/
theorem c2_success_on_third_attempt (script : Nat → AttemptOutcome)
    (taskId : JStr) (mgr0 : CommentState) (s1 s2 s3 : JStr) (ok1 ok2 : Bool)
    (hpresent : (findTask mgr0 taskId).isSome = true)
    (hs1 : script 1 = .tested s1 ok1) (hm1 : jsIncludes s1 TEST_SUCCESS_PHARESE = false)
    (hs2 : script 2 = .tested s2 ok2) (hm2 : jsIncludes s2 TEST_SUCCESS_PHARESE = false)
    (hs3 : script 3 = .tested s3 true) (hm3 : jsIncludes s3 TEST_SUCCESS_PHARESE = true) :
    (runUstaTask script taskId mgr0).taskCompleted = true ∧
    (runUstaTask script taskId mgr0).tries = 3 ∧
    (runUstaTask script taskId mgr0).rollbacks = 2 ∧
    (runUstaTask script taskId mgr0).exitedNonZero = false ∧
    (∃ tp, findTask (runUstaTask script taskId mgr0).mgr taskId = some tp ∧
      tp.status = .completed ∧ tp.completedOnAttempt = some 3) := by
  have e1 := attemptStep_tested_nomarker script taskId (initLoopState mgr0 taskId)
    s1 ok1 hs1 hm1
  have h1t : (attemptStep script taskId (initLoopState mgr0 taskId)).tries = 1 := by
    rw [e1]; rfl
  have h1c : (attemptStep script taskId (initLoopState mgr0 taskId)).taskCompleted = false := by
    rw [e1]; rfl
  have h1r : (attemptStep script taskId (initLoopState mgr0 taskId)).rollbacks = 1 := by
    rw [e1]; rfl
  have e2 := attemptStep_tested_nomarker script taskId
    (attemptStep script taskId (initLoopState mgr0 taskId)) s2 ok2
    (by rw [h1t]; exact hs2) hm2
  have h2t : (attemptStep script taskId (attemptStep script taskId
      (initLoopState mgr0 taskId))).tries = 2 := by rw [e2]; dsimp only; rw [h1t]
  have h2c : (attemptStep script taskId (attemptStep script taskId
      (initLoopState mgr0 taskId))).taskCompleted = false := by
    rw [e2]; dsimp only; exact h1c
  have h2r : (attemptStep script taskId (attemptStep script taskId
      (initLoopState mgr0 taskId))).rollbacks = 2 := by
    rw [e2]; dsimp only; rw [h1r]
  have e3 := attemptStep_tested_marker_commit script taskId
    (attemptStep script taskId (attemptStep script taskId (initLoopState mgr0 taskId)))
    s3 (by rw [h2t]; exact hs3) hm3
  have h3t : (attemptStep script taskId (attemptStep script taskId (attemptStep script
      taskId (initLoopState mgr0 taskId)))).tries = 3 := by
    rw [e3]; dsimp only; rw [h2t]
  have h3c : (attemptStep script taskId (attemptStep script taskId (attemptStep script
      taskId (initLoopState mgr0 taskId)))).taskCompleted = true := by
    rw [e3]
  have h3r : (attemptStep script taskId (attemptStep script taskId (attemptStep script
      taskId (initLoopState mgr0 taskId)))).rollbacks = 2 := by
    rw [e3]; dsimp only; exact h2r
  have hloop : runRetryLoop script taskId 3 (initLoopState mgr0 taskId) =
      attemptStep script taskId (attemptStep script taskId (attemptStep script taskId
        (initLoopState mgr0 taskId))) := by
    rw [show (3 : Nat) = 2 + 1 from rfl, runRetryLoop_succ,
      if_pos ⟨by rw [show (initLoopState mgr0 taskId).tries = 0 from rfl]; omega, rfl⟩]
    rw [show (2 : Nat) = 1 + 1 from rfl, runRetryLoop_succ,
      if_pos ⟨by rw [h1t]; omega, h1c⟩]
    rw [show (1 : Nat) = 0 + 1 from rfl, runRetryLoop_succ,
      if_pos ⟨by rw [h2t]; omega, h2c⟩]
    rfl
  have hrun : runUstaTask script taskId mgr0 =
      finishTask taskId (attemptStep script taskId (attemptStep script taskId
        (attemptStep script taskId (initLoopState mgr0 taskId)))) := by
    unfold runUstaTask
    rw [hloop]
  have hfin : finishTask taskId (attemptStep script taskId (attemptStep script taskId
      (attemptStep script taskId (initLoopState mgr0 taskId)))) =
      { mgr := (attemptStep script taskId (attemptStep script taskId (attemptStep script
          taskId (initLoopState mgr0 taskId)))).mgr
        tries := (attemptStep script taskId (attemptStep script taskId (attemptStep script
          taskId (initLoopState mgr0 taskId)))).tries
        taskCompleted := true
        rollbacks := (attemptStep script taskId (attemptStep script taskId (attemptStep
          script taskId (initLoopState mgr0 taskId)))).rollbacks
        commits := (attemptStep script taskId (attemptStep script taskId (attemptStep
          script taskId (initLoopState mgr0 taskId)))).commits
        exitedNonZero := false } := by
    unfold finishTask
    rw [h3c, if_pos rfl]
  rw [hrun, hfin]
  refine ⟨rfl, h3t, h3r, rfl, ?_⟩
  have h0s : (findTask (initLoopState mgr0 taskId).mgr taskId).isSome = true := by
    rw [show (initLoopState mgr0 taskId).mgr = updateTaskStatus mgr0 taskId .working none
      from rfl, findTask_isSome_updateTaskStatus]
    exact hpresent
  have h1s : (findTask (attemptStep script taskId (initLoopState mgr0 taskId)).mgr
      taskId).isSome = true := by
    rw [e1]
    dsimp only
    rw [findTask_isSome_updateTaskStatus, findTask_isSome_updateTaskStatus, h0s]
  have h2s : (findTask (attemptStep script taskId (attemptStep script taskId
      (initLoopState mgr0 taskId))).mgr taskId).isSome = true := by
    rw [e2]
    dsimp only
    rw [findTask_isSome_updateTaskStatus, findTask_isSome_updateTaskStatus, h1s]
  have hm3' : (attemptStep script taskId (attemptStep script taskId (attemptStep script
      taskId (initLoopState mgr0 taskId)))).mgr =
      updateTaskStatus (updateTaskStatus (updateTaskStatus
        (attemptStep script taskId (attemptStep script taskId
          (initLoopState mgr0 taskId))).mgr taskId .working (some 3)) taskId
        .testing none) taskId .completed none := by
    rw [e3]
    dsimp only
    rw [h2t]
  rw [hm3', findTask_updateTaskStatus, findTask_updateTaskStatus,
    findTask_updateTaskStatus]
  cases hv : findTask (attemptStep script taskId (attemptStep script taskId
      (initLoopState mgr0 taskId))).mgr taskId with
  | none => rw [hv] at h2s; cases h2s
  | some tp0 =>
    refine ⟨_, rfl, ?_, ?_⟩
    · exact applyStatusUpdate_status _ _ _
    · rw [applyStatusUpdate_completedOn]
      have ha : (applyStatusUpdate .testing none
          (applyStatusUpdate .working (some 3) tp0)).attempt = 3 := by
        rw [applyStatusUpdate_attempt_none, applyStatusUpdate_attempt_some]
      rw [ha]
      rfl

/-- C2 witness: a concrete scripted run failing twice then succeeding. -/
theorem c2_success_on_third_attempt_witness :
    (runUstaTask (fun i => if i = 3 then .tested ("__TASK_TEST_COMPLETED__ done".toList) true
        else .tested ("nope".toList) true) ("1".toList)
      (createCommentState ("s".toList)
        [⟨"1".toList, "1. T".toList, [], false, [], []⟩])).rollbacks = 2 ∧
    (∃ tp, findTask (runUstaTask (fun i => if i = 3 then
        .tested ("__TASK_TEST_COMPLETED__ done".toList) true
        else .tested ("nope".toList) true) ("1".toList)
      (createCommentState ("s".toList)
        [⟨"1".toList, "1. T".toList, [], false, [], []⟩])).mgr ("1".toList) = some tp ∧
      tp.status = .completed ∧ tp.completedOnAttempt = some 3) := by
  have h := c2_success_on_third_attempt
    (fun i => if i = 3 then .tested ("__TASK_TEST_COMPLETED__ done".toList) true
      else .tested ("nope".toList) true) ("1".toList)
    (createCommentState ("s".toList) [⟨"1".toList, "1. T".toList, [], false, [], []⟩])
    ("nope".toList) ("nope".toList) ("__TASK_TEST_COMPLETED__ done".toList) true true
    (by decide) (by decide) (by decide) (by decide) (by decide) (by decide) (by decide)
  exact ⟨h.2.2.1, h.2.2.2.2⟩

/-! ## Claim C10: checkbox lines before the first section heading -/

theorem processLines_cons (s : ParseState) (l : JStr) (ls : List JStr) :
    processLines s (l :: ls) = processLines (parseStep s l) ls := rfl

theorem finalize_processLines_nosec (lines : List JStr) :
    ∀ a b : Option Task,
      finalizeState (processLines ⟨[], none, a⟩ lines) =
        finalizeState (processLines ⟨[], none, b⟩ lines) := by
  induction lines with
  | nil => intro a b; rfl
  | cons l ls ih =>
    intro a b
    rw [processLines_cons, processLines_cons]
    cases hc : classifyLine l with
    | header title =>
      have e1 : parseStep ⟨[], none, a⟩ l = ⟨[], some ⟨title, []⟩, none⟩ := by
        unfold parseStep; rw [hc]; rfl
      have e2 : parseStep ⟨[], none, b⟩ l = ⟨[], some ⟨title, []⟩, none⟩ := by
        unfold parseStep; rw [hc]; rfl
      rw [e1, e2]
    | task t =>
      have e1 : parseStep ⟨[], none, a⟩ l = ⟨[], none, some t⟩ := by
        unfold parseStep; rw [hc]; rfl
      have e2 : parseStep ⟨[], none, b⟩ l = ⟨[], none, some t⟩ := by
        unfold parseStep; rw [hc]; rfl
      rw [e1, e2]
    | indent trimmed =>
      have e1 : ∃ a', parseStep ⟨[], none, a⟩ l = ⟨[], none, a'⟩ := by
        unfold parseStep
        rw [hc]
        cases a with
        | none => exact ⟨none, rfl⟩
        | some t => exact ⟨some (applyIndent t trimmed), rfl⟩
      have e2 : ∃ b', parseStep ⟨[], none, b⟩ l = ⟨[], none, b'⟩ := by
        unfold parseStep
        rw [hc]
        cases b with
        | none => exact ⟨none, rfl⟩
        | some t => exact ⟨some (applyIndent t trimmed), rfl⟩
      obtain ⟨a', ea⟩ := e1
      obtain ⟨b', eb⟩ := e2
      rw [ea, eb]
      exact ih a' b'
    | other =>
      have e1 : parseStep ⟨[], none, a⟩ l = ⟨[], none, a⟩ := by
        unfold parseStep; rw [hc]
      have e2 : parseStep ⟨[], none, b⟩ l = ⟨[], none, b⟩ := by
        unfold parseStep; rw [hc]
      rw [e1, e2]
      exact ih a b

theorem parseStep_nosec_shape (a : Option Task) (l : JStr)
    (h : isSectionHeader l = false) :
    ∃ a', parseStep ⟨[], none, a⟩ l = ⟨[], none, a'⟩ := by
  cases hc : classifyLine l with
  | header title =>
    exfalso
    unfold classifyLine at hc
    rw [h] at hc
    simp only [Bool.false_eq_true, if_false] at hc
    cases htm : taskMatch l with
    | some v =>
      rw [htm] at hc
      obtain ⟨c, pref, tt⟩ := v
      cases hc
    | none =>
      rw [htm] at hc
      by_cases hsw : jsStartsWith l ("  ".toList) = true
      · rw [if_pos hsw] at hc; cases hc
      · rw [if_neg hsw] at hc; cases hc
  | task t =>
    refine ⟨some t, ?_⟩
    unfold parseStep; rw [hc]; rfl
  | indent trimmed =>
    unfold parseStep
    rw [hc]
    cases a with
    | none => exact ⟨none, rfl⟩
    | some t => exact ⟨some (applyIndent t trimmed), rfl⟩
  | other =>
    refine ⟨a, ?_⟩
    unfold parseStep; rw [hc]

/-- C10: every task checkbox line before the first section heading is
silently dropped: the parse of a document whose prefix contains no `## `
heading equals the parse of the rest alone, so such tasks are absent from
the parse result, from `getAllTasks`, from `getNextTask`, and from
`getTaskById`. -/
theorem c10_preheader_tasks_dropped (pre post : List JStr)
    (h : ∀ l ∈ pre, isSectionHeader l = false) :
    parseTasksLines (pre ++ post) = parseTasksLines post ∧
    getAllTasksLines (pre ++ post) = getAllTasksLines post ∧
    getNextTaskLines (pre ++ post) = getNextTaskLines post ∧
    (∀ taskId, getTaskByIdLines (pre ++ post) taskId = getTaskByIdLines post taskId) := by
  have key : ∀ (pre' : List JStr), (∀ l ∈ pre', isSectionHeader l = false) →
      ∀ a : Option Task,
        finalizeState (processLines ⟨[], none, a⟩ (pre' ++ post)) = parseTasksLines post := by
    intro pre'
    induction pre' with
    | nil =>
      intro _ a
      exact finalize_processLines_nosec post a none
    | cons l ls ih =>
      intro hp a
      rw [List.cons_append, processLines_cons]
      obtain ⟨a', ea⟩ := parseStep_nosec_shape a l (hp l (List.mem_cons_self l ls))
      rw [ea]
      exact ih (fun x hx => hp x (List.mem_cons_of_mem l hx)) a'
  have hmain : parseTasksLines (pre ++ post) = parseTasksLines post := key pre h none
  refine ⟨hmain, ?_, ?_, ?_⟩
  · unfold getAllTasksLines
    rw [hmain]
  · unfold getNextTaskLines getAllTasksLines
    rw [hmain]
  · intro taskId
    unfold getTaskByIdLines getAllTasksLines
    rw [hmain]

/-- C10 witness: a checkbox line before any heading never shows up. -/
theorem c10_preheader_tasks_dropped_witness :
    parseTasksLines (["- [ ] 9. Ghost".toList] ++
        ["## S".toList, "- [ ] 1. Real".toList]) =
      parseTasksLines ["## S".toList, "- [ ] 1. Real".toList] ∧
    getAllTasksLines (["- [ ] 9. Ghost".toList] ++
        ["## S".toList, "- [ ] 1. Real".toList]) =
      getAllTasksLines ["## S".toList, "- [ ] 1. Real".toList] :=
  ⟨(c10_preheader_tasks_dropped ["- [ ] 9. Ghost".toList]
      ["## S".toList, "- [ ] 1. Real".toList] (by decide)).1,
   (c10_preheader_tasks_dropped ["- [ ] 9. Ghost".toList]
      ["## S".toList, "- [ ] 1. Real".toList] (by decide)).2.1⟩

/-! ## Round-trip infrastructure lemmas -/

theorem isJsSpace_mem (c : Char) (h : isJsSpace c = true) : c ∈ jsWhitespaceChars :=
  List.mem_of_elem_eq_true h

theorem isJsSpace_ne_rbracket (c : Char) (h : isJsSpace c = true) : ¬ (c = ']') := by
  intro he
  subst he
  exact absurd h (by decide)

theorem isDigit_not_jsSpace (c : Char) (h : c.isDigit = true) : isJsSpace c = false := by
  by_contra hc
  rw [Bool.not_eq_false] at hc
  have hm := isJsSpace_mem c hc
  simp only [jsWhitespaceChars, List.mem_cons, List.not_mem_nil, or_false] at hm
  rcases hm with rfl | rfl | rfl | rfl | rfl | rfl | rfl | rfl | rfl | rfl | rfl | rfl |
    rfl | rfl | rfl | rfl | rfl | rfl | rfl | rfl | rfl | rfl | rfl | rfl | rfl <;>
    exact absurd h (by decide)

theorem isDigit_beq_dot_false (c : Char) (h : c.isDigit = true) : ('.' == c) = false := by
  by_contra hc
  rw [Bool.not_eq_false, beq_iff_eq] at hc
  subst hc
  exact absurd h (by decide)

theorem jsIncludes_of_pref (hay pre : JStr) (h : pre <+: hay) :
    jsIncludes hay pre = true := by
  cases hay with
  | nil =>
    rw [List.prefix_nil.mp h]
    rfl
  | cons c cs =>
    unfold jsIncludes
    rw [List.isPrefixOf_iff_prefix.mpr h]
    rfl

theorem mkTask_completed (c : Bool) (pref : Option JStr) (titleText : JStr) :
    (mkTask c pref titleText).completed = c := by
  cases pref <;> rfl

theorem applyIndent_completed (t : Task) (trimmed : JStr) :
    (applyIndent t trimmed).completed = t.completed := by
  unfold applyIndent
  repeat' split
  all_goals rfl

theorem applyIndent_id (t : Task) (trimmed : JStr) :
    (applyIndent t trimmed).id = t.id := by
  unfold applyIndent
  repeat' split
  all_goals rfl

theorem jsReplaceFirst_digits_dot (ds : JStr) (h : ∀ c ∈ ds, c.isDigit = true) :
    jsReplaceFirst ['.'] [] (ds ++ ['.', ' ']) = ds ++ [' '] := by
  induction ds with
  | nil => rfl
  | cons d ds' ih =>
    have hd : ('.' == d) = false := isDigit_beq_dot_false d (h d (List.mem_cons_self d ds'))
    rw [List.cons_append]
    unfold jsReplaceFirst
    rw [show List.isPrefixOf ['.'] (d :: (ds' ++ ['.', ' '])) = (('.' == d) &&
      List.isPrefixOf [] (ds' ++ ['.', ' '])) from rfl, hd]
    rw [ih (fun c hc => h c (List.mem_cons_of_mem d hc))]
    rfl

theorem jsTrim_digits_space (ds : JStr) (hne : ds ≠ [])
    (h : ∀ c ∈ ds, c.isDigit = true) :
    jsTrim (ds ++ [' ']) = ds := by
  unfold jsTrim
  have h1 : (ds ++ [' ']).dropWhile isJsSpace = ds ++ [' '] := by
    cases ds with
    | nil => exact absurd rfl hne
    | cons d ds' =>
      rw [List.cons_append]
      exact List.dropWhile_cons_of_neg (by
        rw [isDigit_not_jsSpace d (h d (List.mem_cons_self d ds'))]
        exact Bool.false_ne_true)
  rw [h1, List.reverse_append]
  rw [show ([' '] : JStr).reverse = [' '] from rfl]
  rw [show ([' '] : JStr) ++ ds.reverse = ' ' :: ds.reverse from rfl]
  rw [List.dropWhile_cons_of_pos (by decide)]
  have h2 : ds.reverse.dropWhile isJsSpace = ds.reverse := by
    cases hrev : ds.reverse with
    | nil => rfl
    | cons r rs =>
      refine List.dropWhile_cons_of_neg ?_
      have hrm : r ∈ ds := by
        rw [← List.mem_reverse, hrev]
        exact List.mem_cons_self r rs
      rw [isDigit_not_jsSpace r (h r hrm)]
      exact Bool.false_ne_true
  rw [h2, List.reverse_reverse]

theorem notRBracket_of_ws (S : JStr) (hS : S.all isJsSpace = true) :
    ∀ c ∈ S, (fun c => ¬ (c = ']') : Char → Bool) c = true := by
  intro c hc
  have := (List.all_eq_true.mp hS) c hc
  simp only [decide_eq_true_eq]
  exact isJsSpace_ne_rbracket c this

theorem takeWhile_ws_bracket (S tail : JStr) (hS : S.all isJsSpace = true) :
    (S ++ ']' :: tail).takeWhile (fun c => ¬ (c = ']')) = S := by
  rw [List.takeWhile_append_of_pos (notRBracket_of_ws S hS)]
  rw [List.takeWhile_cons_of_neg (by simp)]
  rw [List.append_nil]

theorem dropWhile_ws_bracket (S tail : JStr) (hS : S.all isJsSpace = true) :
    (S ++ ']' :: tail).dropWhile (fun c => ¬ (c = ']')) = ']' :: tail := by
  rw [List.dropWhile_append_of_pos (notRBracket_of_ws S hS)]
  rw [List.dropWhile_cons_of_neg (by simp)]

theorem uncheckedMatch_inv (l A : JStr) (h : uncheckedMatch l = some A) :
    ∃ S, l = '-' :: ' ' :: '[' :: (S ++ ']' :: ' ' :: A) ∧
      S.all isJsSpace = true ∧ A ≠ [] := by
  unfold uncheckedMatch at h
  split at h
  case _ rest =>
    dsimp only at h
    split at h
    case isTrue hall =>
      split at h
      case _ t heq =>
        split at h
        case isTrue => exact absurd h (by simp)
        case isFalse hne =>
          injection h with hA
          subst hA
          refine ⟨rest.takeWhile (fun c => ¬ (c = ']')), ?_, hall, ?_⟩
          · have h2 := List.takeWhile_append_dropWhile (fun c => ¬ (c = ']')) rest
            rw [heq] at h2
            rw [h2]
          · intro hnil
            subst hnil
            exact hne rfl
      case _ => exact absurd h (by simp)
    case isFalse => exact absurd h (by simp)
  case _ => exact absurd h (by simp)

theorem checkboxMatch_false_inv (rest tfull : JStr)
    (h : checkboxMatch rest = some (false, tfull)) :
    rest.dropWhile (fun c => ¬ (c = ']')) = ']' :: ' ' :: tfull ∧
    (rest.takeWhile (fun c => ¬ (c = ']'))).all isJsSpace = true := by
  unfold checkboxMatch at h
  dsimp only at h
  split at h
  case _ t heq =>
    split at h
    case isTrue hall =>
      split at h
      case isTrue =>
        injection h with h1
        rw [Prod.mk.injEq] at h1
        obtain ⟨-, ht⟩ := h1
        subst ht
        exact ⟨heq, hall⟩
      case isFalse => exact absurd h (by simp)
    case isFalse =>
      split at h
      case _ r heq2 =>
        split at h
        case isTrue =>
          injection h with h1
          rw [Prod.mk.injEq] at h1
          obtain ⟨hc, -⟩ := h1
          cases hc
        case isFalse => exact absurd h (by simp)
      case _ => exact absurd h (by simp)
  case _ => exact absurd h (by simp)

theorem uncheckedMatch_eval (S A : JStr) (hS : S.all isJsSpace = true)
    (hA : ¬ A.isEmpty = true) :
    uncheckedMatch ('-' :: ' ' :: '[' :: (S ++ ']' :: ' ' :: A)) = some A := by
  simp only [uncheckedMatch]
  rw [takeWhile_ws_bracket S (' ' :: A) hS, dropWhile_ws_bracket S (' ' :: A) hS,
    if_pos hS]
  split
  case _ t heq =>
    obtain ⟨-, -, ht⟩ : ']' = ']' ∧ ' ' = ' ' ∧ A = t := by
      simpa using heq
    subst ht
    rw [if_neg hA]
  case _ hno => exact absurd rfl (hno A)

theorem uncheckedMatch_of_taskMatch_false (l : JStr) (pref : Option JStr) (tt : JStr)
    (h : taskMatch l = some (false, pref, tt)) :
    ∃ A, uncheckedMatch l = some A ∧ (pref, tt) = splitNumPref A := by
  unfold taskMatch at h
  split at h
  case _ rest =>
    split at h
    case _ completed t hcb =>
      split at h
      case isTrue => exact absurd h (by simp)
      case isFalse hne =>
        injection h with h1
        rw [Prod.mk.injEq] at h1
        obtain ⟨hc, hsp⟩ := h1
        subst hc
        obtain ⟨hdrop, hall⟩ := checkboxMatch_false_inv rest t hcb
        refine ⟨t, ?_, hsp.symm⟩
        have h2 := List.takeWhile_append_dropWhile (fun c => ¬ (c = ']')) rest
        rw [hdrop] at h2
        rw [show ('-' :: ' ' :: '[' :: rest : JStr) =
          '-' :: ' ' :: '[' :: (rest.takeWhile (fun c => ¬ (c = ']')) ++ ']' :: ' ' :: t)
          from by rw [h2]]
        exact uncheckedMatch_eval _ t hall hne
    case _ hcb => exact absurd h (by simp)
  case _ => exact absurd h (by simp)

theorem checkboxMatch_eval_ws (S A : JStr) (hS : S.all isJsSpace = true) :
    checkboxMatch (S ++ ']' :: ' ' :: A) =
      (if S.contains ' ' = true then some (false, A) else none) := by
  simp only [checkboxMatch]
  rw [takeWhile_ws_bracket S (' ' :: A) hS, dropWhile_ws_bracket S (' ' :: A) hS]
  split
  case _ t heq =>
    obtain ⟨-, -, ht⟩ : ']' = ']' ∧ ' ' = ' ' ∧ A = t := by
      simpa using heq
    subst ht
    rw [if_pos hS]
  case _ hno => exact absurd rfl (hno A)

theorem checkboxMatch_eval_x (A : JStr) :
    checkboxMatch ('x' :: ']' :: ' ' :: A) = some (true, A) := by
  have ht : List.takeWhile (fun c => ¬ (c = ']')) ('x' :: ']' :: ' ' :: A) = ['x'] := by
    rw [List.takeWhile_cons_of_pos (by decide), List.takeWhile_cons_of_neg (by decide)]
  have hd : List.dropWhile (fun c => ¬ (c = ']')) ('x' :: ']' :: ' ' :: A) =
      ']' :: ' ' :: A := by
    rw [List.dropWhile_cons_of_pos (by decide), List.dropWhile_cons_of_neg (by decide)]
  simp only [checkboxMatch]
  rw [ht, hd]
  split
  case _ t heq =>
    obtain ⟨-, -, htA⟩ : ']' = ']' ∧ ' ' = ' ' ∧ A = t := by
      simpa using heq
    subst htA
    rw [if_neg (by decide)]
    have hdx : List.dropWhile isJsSpace (['x'] : JStr) = ['x'] := by
      rw [List.dropWhile_cons_of_neg (by decide)]
    rw [hdx]
    split
    case _ r heq2 =>
      obtain ⟨-, hr⟩ : 'x' = 'x' ∧ ([] : JStr) = r := by
        simpa using heq2
      subst hr
      rw [if_pos (show (([] : JStr).all isJsSpace = true) from rfl)]
    case _ hno => exact absurd rfl (hno [])
  case _ hno => exact absurd rfl (hno A)

theorem taskMatch_eval_unchecked (S A : JStr) (hS : S.all isJsSpace = true)
    (hsp : S.contains ' ' = true) (hA : ¬ A.isEmpty = true) :
    taskMatch ('-' :: ' ' :: '[' :: (S ++ ']' :: ' ' :: A)) =
      some (false, (splitNumPref A).1, (splitNumPref A).2) := by
  simp only [taskMatch]
  rw [checkboxMatch_eval_ws S A hS, if_pos hsp]
  split
  case _ completed t hcb =>
    obtain ⟨hc, ht⟩ : false = completed ∧ A = t := by
      simpa using hcb
    subst hc
    subst ht
    rw [if_neg hA]
  case _ hno => exact Option.noConfusion hno

theorem taskMatch_eval_nosp (S A : JStr) (hS : S.all isJsSpace = true)
    (hsp : S.contains ' ' = false) :
    taskMatch ('-' :: ' ' :: '[' :: (S ++ ']' :: ' ' :: A)) = none := by
  simp only [taskMatch]
  rw [checkboxMatch_eval_ws S A hS, if_neg (by rw [hsp]; exact Bool.false_ne_true)]

theorem taskMatch_eval_flipped (A : JStr) (hA : ¬ A.isEmpty = true) :
    taskMatch ('-' :: ' ' :: '[' :: 'x' :: ']' :: ' ' :: A) =
      some (true, (splitNumPref A).1, (splitNumPref A).2) := by
  simp only [taskMatch]
  rw [show ('x' :: ']' :: ' ' :: A : JStr) = 'x' :: (']' :: ' ' :: A) from rfl]
  rw [checkboxMatch_eval_x A]
  split
  case _ completed t hcb =>
    obtain ⟨hc, ht⟩ : true = completed ∧ A = t := by
      simpa using hcb
    subst hc
    subst ht
    rw [if_neg hA]
  case _ hno => exact Option.noConfusion hno

theorem isSectionHeader_dash (xs : JStr) : isSectionHeader ('-' :: xs) = false := rfl

theorem jsStartsWith_dash_spaces (xs : JStr) :
    jsStartsWith ('-' :: xs) ("  ".toList) = false := rfl

theorem classifyLine_unchecked_sp (S A : JStr) (hS : S.all isJsSpace = true)
    (hsp : S.contains ' ' = true) (hA : ¬ A.isEmpty = true) :
    classifyLine ('-' :: ' ' :: '[' :: (S ++ ']' :: ' ' :: A)) =
      .task (mkTask false (splitNumPref A).1 (splitNumPref A).2) := by
  unfold classifyLine
  rw [if_neg (by rw [isSectionHeader_dash]; exact Bool.false_ne_true)]
  rw [taskMatch_eval_unchecked S A hS hsp hA]

theorem classifyLine_unchecked_nosp (S A : JStr) (hS : S.all isJsSpace = true)
    (hsp : S.contains ' ' = false) :
    classifyLine ('-' :: ' ' :: '[' :: (S ++ ']' :: ' ' :: A)) = .other := by
  unfold classifyLine
  rw [if_neg (by rw [isSectionHeader_dash]; exact Bool.false_ne_true)]
  rw [taskMatch_eval_nosp S A hS hsp]
  rw [if_neg (by rw [jsStartsWith_dash_spaces]; exact Bool.false_ne_true)]

theorem classifyLine_flipped (A : JStr) (hA : ¬ A.isEmpty = true) :
    classifyLine ('-' :: ' ' :: '[' :: 'x' :: ']' :: ' ' :: A) =
      .task (mkTask true (splitNumPref A).1 (splitNumPref A).2) := by
  unfold classifyLine
  rw [if_neg (by rw [isSectionHeader_dash]; exact Bool.false_ne_true)]
  rw [taskMatch_eval_flipped A hA]

theorem matchBoxAt_eval (S A : JStr) (hS : S.all isJsSpace = true) :
    matchBoxAt ('-' :: ' ' :: '[' :: (S ++ ']' :: ' ' :: A)) = some (S.length + 4) := by
  simp only [matchBoxAt]
  have h1 : (S ++ ']' :: ' ' :: A).takeWhile isJsSpace = S := by
    rw [List.takeWhile_append_of_pos (fun a ha => (List.all_eq_true.mp hS) a ha),
      List.takeWhile_cons_of_neg (by decide), List.append_nil]
  have h2 : (S ++ ']' :: ' ' :: A).dropWhile isJsSpace = ']' :: ' ' :: A := by
    rw [List.dropWhile_append_of_pos (fun a ha => (List.all_eq_true.mp hS) a ha),
      List.dropWhile_cons_of_neg (by decide)]
  rw [h1, h2, if_pos (show ((']' :: ' ' :: A : JStr).head? = some ']') from rfl)]

theorem replaceBox_unchecked (S A : JStr) (hS : S.all isJsSpace = true) :
    replaceBox ('-' :: ' ' :: '[' :: (S ++ ']' :: ' ' :: A)) =
      '-' :: ' ' :: '[' :: 'x' :: ']' :: ' ' :: A := by
  simp only [replaceBox]
  rw [matchBoxAt_eval S A hS]
  split
  case _ n hn =>
    obtain hn' : S.length + 4 = n := by simpa using hn
    subst hn'
    have hsplit : ('-' :: ' ' :: '[' :: (S ++ ']' :: ' ' :: A) : JStr) =
        ('-' :: ' ' :: '[' :: (S ++ [']'])) ++ (' ' :: A) := by
      simp
    have hlen : ('-' :: ' ' :: '[' :: (S ++ [']'])).length = S.length + 4 := by
      simp
    rw [hsplit, ← hlen, List.drop_left]
    rfl
  case _ hno => exact Option.noConfusion hno

theorem mkTask_id_none_pref (c : Bool) (titleText : JStr) :
    (mkTask c none titleText).id <+: titleText := by
  unfold mkTask jsFirstWord
  dsimp only
  split
  · exact List.prefix_refl _
  · exact List.takeWhile_prefix _

theorem mkTask_id_pref (c : Bool) (tfull : JStr) :
    (mkTask c (splitNumPref tfull).1 (splitNumPref tfull).2).id <+: tfull := by
  unfold splitNumPref
  dsimp only
  split
  · exact mkTask_id_none_pref c tfull
  case isFalse hne =>
    split
    case _ r heq =>
      split
      case isTrue => exact mkTask_id_none_pref c tfull
      case isFalse hre =>
        dsimp only
        unfold mkTask
        dsimp only
        have hds : ∀ c' ∈ tfull.takeWhile Char.isDigit, c'.isDigit = true :=
          fun _ hc => List.mem_takeWhile_imp hc
        rw [jsReplaceFirst_digits_dot _ hds,
          jsTrim_digits_space _ (by simpa using hne) hds]
        exact List.takeWhile_prefix _
    case _ => exact mkTask_id_none_pref c tfull

theorem lineMatchesTaskId_self (tfull : JStr) (c : Bool) :
    lineMatchesTaskId tfull
      ((mkTask c (splitNumPref tfull).1 (splitNumPref tfull).2).id) = true := by
  unfold lineMatchesTaskId
  rw [jsIncludes_of_pref _ _ (mkTask_id_pref c tfull)]
  rw [Bool.or_true]

theorem parseStep_other (s : ParseState) (l : JStr) (hc : classifyLine l = .other) :
    parseStep s l = s := by
  unfold parseStep
  rw [hc]

theorem parseStep_header (s : ParseState) (sec : TaskSection) (title : JStr)
    (hsec : s.curSec = some sec) (hc : classifyLine l = .header title) :
    parseStep s l = ⟨s.finished ++ [flushTask sec s.curTask], some ⟨title, []⟩, none⟩ := by
  unfold parseStep
  rw [hc, hsec]

theorem parseStep_task (s : ParseState) (sec : TaskSection) (t : Task)
    (hsec : s.curSec = some sec) (hc : classifyLine l = .task t) :
    parseStep s l = ⟨s.finished, some (flushTask sec s.curTask), some t⟩ := by
  unfold parseStep
  rw [hc, hsec]
  rfl

theorem parseStep_indent_none (s : ParseState) (l : JStr) (trimmed : JStr)
    (hct : s.curTask = none) (hc : classifyLine l = .indent trimmed) :
    parseStep s l = s := by
  unfold parseStep
  rw [hc, hct]

theorem parseStep_indent_some (s : ParseState) (l : JStr) (trimmed : JStr) (t : Task)
    (hct : s.curTask = some t) (hc : classifyLine l = .indent trimmed) :
    parseStep s l = { s with curTask := some (applyIndent t trimmed) } := by
  unfold parseStep
  rw [hc, hct]

theorem parseStep_curSec_preserve (s : ParseState) (l : JStr) (h : s.curSec ≠ none) :
    (parseStep s l).curSec ≠ none := by
  obtain ⟨sec, hsec⟩ := Option.ne_none_iff_exists'.mp h
  cases hc : classifyLine l with
  | header title => rw [parseStep_header s sec title hsec hc]; simp
  | task t => rw [parseStep_task s sec t hsec hc]; simp
  | indent trimmed =>
    cases hct : s.curTask with
    | none => rw [parseStep_indent_none s l trimmed hct hc]; exact h
    | some t => rw [parseStep_indent_some s l trimmed t hct hc]; exact h
  | other => rw [parseStep_other s l hc]; exact h

theorem processLines_curSec_some (lines : List JStr) :
    ∀ s : ParseState, (s.curSec ≠ none ∨ ∃ l ∈ lines, isSectionHeader l = true) →
      (processLines s lines).curSec ≠ none := by
  induction lines with
  | nil =>
    intro s h
    rcases h with h | ⟨l, hl, -⟩
    · exact h
    · simp at hl
  | cons l ls ih =>
    intro s h
    rw [processLines_cons]
    by_cases hh : isSectionHeader l = true
    · refine ih _ (Or.inl ?_)
      have hcl : classifyLine l = .header (jsTrim (l.drop 3)) := by
        unfold classifyLine
        rw [if_pos hh]
      unfold parseStep
      rw [hcl]
      simp
    · rcases h with hcs | ⟨l0, hl0, hh0⟩
      · exact ih _ (Or.inl (parseStep_curSec_preserve s l hcs))
      · rcases List.mem_cons.mp hl0 with rfl | hmem
        · exact absurd hh0 hh
        · exact ih _ (Or.inr ⟨l0, hmem, hh0⟩)

theorem secsCount_append (xs ys : List TaskSection) :
    secsCount (xs ++ ys) = secsCount xs + secsCount ys := by
  unfold secsCount
  rw [List.flatMap_append, List.countP_append]

theorem secsCount_single (sec : TaskSection) :
    secsCount [sec] = sec.tasks.countP (fun t => t.completed) := by
  unfold secsCount
  simp

theorem countP_flush (sec : TaskSection) (ct : Option Task) :
    (flushTask sec ct).tasks.countP (fun t => t.completed) =
      sec.tasks.countP (fun t => t.completed) +
        (match ct with
         | some t => if t.completed = true then 1 else 0
         | none => 0) := by
  cases ct with
  | none => simp [flushTask]
  | some t =>
    cases hcomp : t.completed with
    | true => simp [flushTask, List.countP_append, List.countP_cons, hcomp]
    | false => simp [flushTask, List.countP_append, List.countP_cons, hcomp]

theorem finalize_count (s : ParseState) (sec : TaskSection) (hsec : s.curSec = some sec) :
    secsCount (finalizeState s) = stCount s := by
  unfold finalizeState stCount
  rw [hsec]
  rw [secsCount_append, secsCount_single, countP_flush]

theorem stCount_parseStep_header (s : ParseState) (l : JStr) (sec : TaskSection)
    (title : JStr) (hsec : s.curSec = some sec) (hc : classifyLine l = .header title) :
    stCount (parseStep s l) = stCount s := by
  rw [parseStep_header s sec title hsec hc]
  unfold stCount
  rw [hsec]
  dsimp only
  rw [secsCount_append, secsCount_single, countP_flush]
  simp

theorem stCount_parseStep_task (s : ParseState) (l : JStr) (sec : TaskSection)
    (t : Task) (hsec : s.curSec = some sec) (hc : classifyLine l = .task t) :
    stCount (parseStep s l) = stCount s + (if t.completed = true then 1 else 0) := by
  rw [parseStep_task s sec t hsec hc]
  unfold stCount
  rw [hsec]
  dsimp only
  rw [countP_flush]
  omega

theorem stCount_parseStep_indent (s : ParseState) (l : JStr) (trimmed : JStr)
    (hc : classifyLine l = .indent trimmed) :
    stCount (parseStep s l) = stCount s := by
  cases hct : s.curTask with
  | none => rw [parseStep_indent_none s l trimmed hct hc]
  | some t =>
    rw [parseStep_indent_some s l trimmed t hct hc]
    unfold stCount
    dsimp only
    rw [hct, applyIndent_completed]

theorem count_processLines (lines : List JStr) :
    ∀ s : ParseState, s.curSec ≠ none →
      secsCount (finalizeState (processLines s lines)) =
        stCount s + checkedLineCount lines := by
  induction lines with
  | nil =>
    intro s hs
    obtain ⟨sec, hsec⟩ := Option.ne_none_iff_exists'.mp hs
    rw [show processLines s [] = s from rfl, finalize_count s sec hsec]
    rfl
  | cons l ls ih =>
    intro s hs
    obtain ⟨sec, hsec⟩ := Option.ne_none_iff_exists'.mp hs
    rw [processLines_cons]
    rw [ih _ (parseStep_curSec_preserve s l hs)]
    have hg : checkedLineCount (l :: ls) = checkedLineCount ls +
        (if (match classifyLine l with
             | .task t => t.completed
             | _ => false) = true then 1 else 0) := by
      unfold checkedLineCount
      rw [List.countP_cons]
    rw [hg]
    cases hc : classifyLine l with
    | header title =>
      rw [stCount_parseStep_header s l sec title hsec hc]
      simp
    | task t =>
      rw [stCount_parseStep_task s l sec t hsec hc]
      dsimp only
      omega
    | indent trimmed =>
      rw [stCount_parseStep_indent s l trimmed hc]
      simp
    | other =>
      rw [parseStep_other s l hc]
      simp

theorem parseTasksLines_split (pre : List JStr) (X : JStr) (post : List JStr) :
    parseTasksLines (pre ++ X :: post) =
      finalizeState (processLines (parseStep (processLines initState pre) X) post) := by
  unfold parseTasksLines processLines
  rw [List.foldl_append]
  rfl

theorem completedCount_eq_secsCount (lines : List JStr) :
    completedCount lines = secsCount (parseTasksLines lines) := rfl

theorem markTasksLines_some_decomp (lines : List JStr) (tid : JStr) :
    ∀ lines' : List JStr, markTaskAsCompletedLines lines tid = some lines' →
      ∃ pre l post A, lines = pre ++ l :: post ∧
        lines' = pre ++ replaceBox l :: post ∧
        uncheckedMatch l = some A ∧ lineMatchesTaskId A tid = true := by
  induction lines with
  | nil => intro lines' h; exact Option.noConfusion h
  | cons l ls ih =>
    intro lines' h
    simp only [markTaskAsCompletedLines] at h
    cases hm : uncheckedMatch l with
    | some A =>
      rw [hm] at h
      dsimp only at h
      by_cases hmt : lineMatchesTaskId A tid = true
      · rw [if_pos hmt] at h
        injection h with h1
        exact ⟨[], l, ls, A, rfl, by rw [← h1]; rfl, hm, hmt⟩
      · rw [if_neg hmt] at h
        cases hrec : markTaskAsCompletedLines ls tid with
        | none => rw [hrec] at h; exact Option.noConfusion h
        | some ls' =>
          rw [hrec] at h
          injection h with h1
          obtain ⟨pre, l0, post, A0, e1, e2, e3, e4⟩ := ih ls' hrec
          exact ⟨l :: pre, l0, post, A0, by rw [e1]; rfl,
            by rw [← h1, e2]; rfl, e3, e4⟩
    | none =>
      rw [hm] at h
      dsimp only at h
      cases hrec : markTaskAsCompletedLines ls tid with
      | none => rw [hrec] at h; exact Option.noConfusion h
      | some ls' =>
        rw [hrec] at h
        injection h with h1
        obtain ⟨pre, l0, post, A0, e1, e2, e3, e4⟩ := ih ls' hrec
        exact ⟨l :: pre, l0, post, A0, by rw [e1]; rfl,
          by rw [← h1, e2]; rfl, e3, e4⟩

theorem markTasksLines_succeeds (lines : List JStr) (tid : JStr)
    (h : ∃ l ∈ lines, ∃ A, uncheckedMatch l = some A ∧ lineMatchesTaskId A tid = true) :
    ∃ lines' : List JStr, markTaskAsCompletedLines lines tid = some lines' := by
  induction lines with
  | nil =>
    obtain ⟨l, hl, -⟩ := h
    simp at hl
  | cons l ls ih =>
    obtain ⟨l0, hl0, A0, hA0, hm0⟩ := h
    cases hm : uncheckedMatch l with
    | some A =>
      by_cases hmt : lineMatchesTaskId A tid = true
      · refine ⟨replaceBox l :: ls, ?_⟩
        simp only [markTaskAsCompletedLines]
        rw [hm]
        dsimp only
        rw [if_pos hmt]
      · rcases List.mem_cons.mp hl0 with rfl | hmem
        · rw [hA0] at hm
          injection hm with hAA
          rw [hAA] at hm0
          exact absurd hm0 hmt
        · obtain ⟨ls', hls'⟩ := ih ⟨l0, hmem, A0, hA0, hm0⟩
          refine ⟨l :: ls', ?_⟩
          simp only [markTaskAsCompletedLines]
          rw [hm]
          dsimp only
          rw [if_neg hmt, hls']
          rfl
    | none =>
      rcases List.mem_cons.mp hl0 with rfl | hmem
      · rw [hA0] at hm
        exact Option.noConfusion hm
      · obtain ⟨ls', hls'⟩ := ih ⟨l0, hmem, A0, hA0, hm0⟩
        refine ⟨l :: ls', ?_⟩
        simp only [markTaskAsCompletedLines]
        rw [hm]
        dsimp only
        rw [hls']
        rfl

theorem mem_flushTask (sec : TaskSection) (ct : Option Task) (t : Task)
    (h : t ∈ (flushTask sec ct).tasks) :
    t ∈ sec.tasks ∨ ct = some t := by
  cases ct with
  | none => exact Or.inl h
  | some t0 =>
    simp only [flushTask] at h
    rcases List.mem_append.mp h with h1 | h1
    · exact Or.inl h1
    · right
      rw [List.mem_singleton] at h1
      rw [h1]

theorem classify_task_inv (l : JStr) (t : Task) (h : classifyLine l = .task t) :
    lineTaskSig l = some (t.completed, t.id) := by
  unfold classifyLine at h
  split at h
  · exact LineKind.noConfusion h
  · split at h
    case _ c pref titleText heq =>
      injection h with ht
      subst ht
      unfold lineTaskSig
      rw [heq]
      dsimp only
      rw [mkTask_completed]
    case _ heq =>
      split at h
      · exact LineKind.noConfusion h
      · exact LineKind.noConfusion h

theorem stateHasSig_parseStep (s : ParseState) (l : JStr) (c : Bool) (id : JStr)
    (h : stateHasSig (parseStep s l) c id) :
    stateHasSig s c id ∨ lineTaskSig l = some (c, id) := by
  cases hc : classifyLine l with
  | header title =>
    have hps : parseStep s l = ⟨s.finished ++ (match s.curSec with
        | some sec => [flushTask sec s.curTask]
        | none => []), some ⟨title, []⟩, none⟩ := by
      unfold parseStep
      rw [hc]
    rw [hps] at h
    unfold stateHasSig at h
    dsimp only at h
    left
    rcases h with ⟨sec, hsec, t, ht, hct, hid⟩ | ⟨sec, hsec, t, ht, -, -⟩ | ⟨t0, hct, -, -⟩
    · rcases List.mem_append.mp hsec with hs1 | hs1
      · exact Or.inl ⟨sec, hs1, t, ht, hct, hid⟩
      · cases hcs : s.curSec with
        | none => rw [hcs] at hs1; simp at hs1
        | some sec0 =>
          rw [hcs] at hs1
          rw [List.mem_singleton] at hs1
          subst hs1
          rcases mem_flushTask sec0 s.curTask t ht with h2 | h2
          · exact Or.inr (Or.inl ⟨sec0, hcs, t, h2, hct, hid⟩)
          · exact Or.inr (Or.inr ⟨t, h2, hct, hid⟩)
    · obtain rfl : (⟨title, []⟩ : TaskSection) = sec := Option.some.inj hsec
      simp at ht
    · exact Option.noConfusion hct
  | task t =>
    cases hcs : s.curSec with
    | none =>
      have hps : parseStep s l = ⟨s.finished, none, some t⟩ := by
        unfold parseStep
        rw [hc, hcs]
        rfl
      rw [hps] at h
      unfold stateHasSig at h
      dsimp only at h
      rcases h with ⟨sec, hs1, t1, ht1, hct, hid⟩ | ⟨sec, hsec, -⟩ | ⟨t0, hct, hcomp, hid⟩
      · exact Or.inl (Or.inl ⟨sec, hs1, t1, ht1, hct, hid⟩)
      · exact Option.noConfusion hsec
      · right
        obtain rfl : t = t0 := Option.some.inj hct
        rw [classify_task_inv l t hc, hcomp, hid]
    | some sec0 =>
      rw [parseStep_task s sec0 t hcs hc] at h
      unfold stateHasSig at h
      dsimp only at h
      rcases h with ⟨sec, hs1, t1, ht1, hct, hid⟩ | ⟨sec, hsec, t1, ht1, hct, hid⟩ |
        ⟨t0, hct, hcomp, hid⟩
      · exact Or.inl (Or.inl ⟨sec, hs1, t1, ht1, hct, hid⟩)
      · obtain rfl : flushTask sec0 s.curTask = sec := Option.some.inj hsec
        rcases mem_flushTask sec0 s.curTask t1 ht1 with h2 | h2
        · exact Or.inl (Or.inr (Or.inl ⟨sec0, hcs, t1, h2, hct, hid⟩))
        · exact Or.inl (Or.inr (Or.inr ⟨t1, h2, hct, hid⟩))
      · right
        obtain rfl : t = t0 := Option.some.inj hct
        rw [classify_task_inv l t hc, hcomp, hid]
  | indent trimmed =>
    cases hct : s.curTask with
    | none =>
      rw [parseStep_indent_none s l trimmed hct hc] at h
      exact Or.inl h
    | some t0 =>
      rw [parseStep_indent_some s l trimmed t0 hct hc] at h
      unfold stateHasSig at h
      dsimp only at h
      left
      rcases h with h1 | ⟨sec, hsec, t1, ht1, hcc, hid⟩ | ⟨t1, hct1, hcomp, hid⟩
      · exact Or.inl h1
      · exact Or.inr (Or.inl ⟨sec, hsec, t1, ht1, hcc, hid⟩)
      · obtain rfl : applyIndent t0 trimmed = t1 := Option.some.inj hct1
        refine Or.inr (Or.inr ⟨t0, hct, ?_, ?_⟩)
        · rw [← applyIndent_completed t0 trimmed, hcomp]
        · rw [← applyIndent_id t0 trimmed, hid]
  | other =>
    rw [parseStep_other s l hc] at h
    exact Or.inl h

theorem stateHasSig_processLines (lines : List JStr) :
    ∀ (s : ParseState) (c : Bool) (id : JStr), stateHasSig (processLines s lines) c id →
      stateHasSig s c id ∨ ∃ l ∈ lines, lineTaskSig l = some (c, id) := by
  induction lines with
  | nil => exact fun s c id h => Or.inl h
  | cons l ls ih =>
    intro s c id h
    rw [processLines_cons] at h
    rcases ih _ c id h with h1 | ⟨l0, hl0, hsig⟩
    · rcases stateHasSig_parseStep s l c id h1 with h2 | h2
      · exact Or.inl h2
      · exact Or.inr ⟨l, List.mem_cons_self l ls, h2⟩
    · exact Or.inr ⟨l0, List.mem_cons_of_mem l hl0, hsig⟩

theorem stateHasSig_finalize (s : ParseState) (t : Task) (sec : TaskSection)
    (hsec : sec ∈ finalizeState s) (ht : t ∈ sec.tasks) :
    stateHasSig s t.completed t.id := by
  unfold finalizeState at hsec
  rcases List.mem_append.mp hsec with h1 | h1
  · exact Or.inl ⟨sec, h1, t, ht, rfl, rfl⟩
  · cases hcs : s.curSec with
    | none => rw [hcs] at h1; simp at h1
    | some sec0 =>
      rw [hcs] at h1
      rw [List.mem_singleton] at h1
      subst h1
      rcases mem_flushTask sec0 s.curTask t ht with h2 | h2
      · exact Or.inr (Or.inl ⟨sec0, hcs, t, h2, rfl, rfl⟩)
      · exact Or.inr (Or.inr ⟨t, h2, rfl, rfl⟩)

theorem task_origin (lines : List JStr) (t : Task) (ht : t ∈ getAllTasksLines lines) :
    ∃ l ∈ lines, lineTaskSig l = some (t.completed, t.id) := by
  unfold getAllTasksLines at ht
  rw [List.mem_flatMap] at ht
  obtain ⟨sec, hsec, htt⟩ := ht
  have h1 := stateHasSig_finalize (processLines initState lines) t sec hsec htt
  rcases stateHasSig_processLines lines initState t.completed t.id h1 with h2 | h2
  · unfold stateHasSig at h2
    simp [initState] at h2
  · exact h2

theorem unchecked_of_sig (l : JStr) (id : JStr) (h : lineTaskSig l = some (false, id)) :
    ∃ A, uncheckedMatch l = some A ∧ lineMatchesTaskId A id = true := by
  unfold lineTaskSig at h
  split at h
  case _ c pref titleText heq =>
    injection h with h1
    rw [Prod.mk.injEq] at h1
    obtain ⟨hc, hid⟩ := h1
    subst hc
    obtain ⟨A, hA, hsp⟩ := uncheckedMatch_of_taskMatch_false l pref titleText heq
    refine ⟨A, hA, ?_⟩
    have h2 := lineMatchesTaskId_self A false
    rw [← hsp] at h2
    dsimp only at h2
    rw [hid] at h2
    exact h2
  case _ => exact Option.noConfusion h

theorem getD_append_mid (pre : List JStr) (l : JStr) (post : List JStr) :
    (pre ++ l :: post).getD pre.length [] = l := by
  rw [List.getD_eq_getElem?_getD, List.getElem?_append_right (le_refl _)]
  simp

theorem getD_append_left (pre rest : List JStr) (j : Nat) (hj : j < pre.length) :
    (pre ++ rest).getD j [] ∈ pre := by
  rw [List.getD_eq_getElem?_getD, List.getElem?_append_left hj, List.getElem?_eq_getElem hj]
  exact List.getElem_mem hj

/-- C3 (counterexample): in the document `["- [ ] 1. A", "## S", "- [ ] 1. B"]`
the parsed output has an incomplete task with id "1" (the one under the
heading; the pre-heading line is dropped by the parser), and
`markTaskAsCompleted "1"` succeeds — but it flips the pre-heading line,
which the parser drops, so the completed count stays 0 instead of rising
by one.  This refutes the round-trip claim for arbitrary documents. -/
theorem c3_roundtrip_counterexample :
    (∃ t ∈ getAllTasksLines
        ["- [ ] 1. A".toList, "## S".toList, "- [ ] 1. B".toList],
      t.completed = false ∧ t.id = "1".toList) ∧
    markTaskAsCompletedLines
        ["- [ ] 1. A".toList, "## S".toList, "- [ ] 1. B".toList] "1".toList =
      some ["- [x] 1. A".toList, "## S".toList, "- [ ] 1. B".toList] ∧
    completedCount ["- [x] 1. A".toList, "## S".toList, "- [ ] 1. B".toList] =
      completedCount ["- [ ] 1. A".toList, "## S".toList, "- [ ] 1. B".toList] := by
  decide

/-- C3 (amended): for documents in which every line carrying an unchecked
checkbox occurs after at least one section-heading line, if the parsed
output contains an incomplete task whose id is `taskId`, then
`markTaskAsCompleted` succeeds, the rewritten document parses to a
completed count exactly one higher, and the rewrite changes exactly one
line, replacing its unchecked box by `- [x]`. -/
theorem c3_roundtrip_amended (lines : List JStr) (taskId : JStr)
    (htask : ∃ t ∈ getAllTasksLines lines, t.completed = false ∧ t.id = taskId)
    (hheads : ∀ i, i < lines.length → uncheckedMatch (lines.getD i []) ≠ none →
      ∃ j, j < i ∧ isSectionHeader (lines.getD j []) = true) :
    ∃ lines' : List JStr, markTaskAsCompletedLines lines taskId = some lines' ∧
      completedCount lines' = completedCount lines + 1 ∧
      ∃ pre l post, lines = pre ++ l :: post ∧
        lines' = pre ++ replaceBox l :: post ∧ uncheckedMatch l ≠ none := by
  obtain ⟨t, htm, hcomp, hid⟩ := htask
  obtain ⟨l0, hl0, hsig⟩ := task_origin lines t htm
  rw [hcomp, hid] at hsig
  obtain ⟨A0, hA0, hm0⟩ := unchecked_of_sig l0 taskId hsig
  obtain ⟨lines', hmark⟩ := markTasksLines_succeeds lines taskId ⟨l0, hl0, A0, hA0, hm0⟩
  obtain ⟨pre, l, post, A, he1, he2, hum, -⟩ :=
    markTasksLines_some_decomp lines taskId lines' hmark
  have hnone : uncheckedMatch l ≠ none := by
    intro hcontra
    rw [hum] at hcontra
    exact Option.noConfusion hcontra
  refine ⟨lines', hmark, ?_, pre, l, post, he1, he2, hnone⟩
  have hidx : pre.length < lines.length := by
    rw [he1]
    simp
  have hmid : lines.getD pre.length [] = l := by
    rw [he1]
    exact getD_append_mid pre l post
  have hne2 : uncheckedMatch (lines.getD pre.length []) ≠ none := by
    rw [hmid]
    exact hnone
  obtain ⟨j, hj, hhead⟩ := hheads pre.length hidx hne2
  have hheadmem : ∃ lh ∈ pre, isSectionHeader lh = true := by
    refine ⟨lines.getD j [], ?_, hhead⟩
    rw [he1]
    exact getD_append_left pre (l :: post) j hj
  have hcs0 : (processLines initState pre).curSec ≠ none :=
    processLines_curSec_some pre initState (Or.inr hheadmem)
  obtain ⟨sec, hsec⟩ := Option.ne_none_iff_exists'.mp hcs0
  obtain ⟨S, hlshape, hSws, hAne⟩ := uncheckedMatch_inv l A hum
  have hAne' : ¬ A.isEmpty = true := by
    intro hcontra
    exact hAne (List.isEmpty_iff.mp hcontra)
  have hstep1 : stCount (parseStep (processLines initState pre) l) =
      stCount (processLines initState pre) := by
    cases hsp : S.contains ' ' with
    | true =>
      rw [hlshape,
        stCount_parseStep_task _ _ sec _ hsec (classifyLine_unchecked_sp S A hSws hsp hAne'),
        mkTask_completed]
      simp
    | false =>
      rw [hlshape, parseStep_other _ _ (classifyLine_unchecked_nosp S A hSws hsp)]
  have hstep2 : stCount (parseStep (processLines initState pre) (replaceBox l)) =
      stCount (processLines initState pre) + 1 := by
    rw [hlshape, replaceBox_unchecked S A hSws,
      stCount_parseStep_task _ _ sec _ hsec (classifyLine_flipped A hAne'),
      mkTask_completed]
    simp
  have hcs1 : (parseStep (processLines initState pre) l).curSec ≠ none :=
    parseStep_curSec_preserve _ l hcs0
  have hcs2 : (parseStep (processLines initState pre) (replaceBox l)).curSec ≠ none :=
    parseStep_curSec_preserve _ (replaceBox l) hcs0
  have hc1 : completedCount lines =
      stCount (processLines initState pre) + checkedLineCount post := by
    rw [he1, completedCount_eq_secsCount, parseTasksLines_split,
      count_processLines post _ hcs1, hstep1]
  have hc2 : completedCount lines' =
      stCount (processLines initState pre) + 1 + checkedLineCount post := by
    rw [he2, completedCount_eq_secsCount, parseTasksLines_split,
      count_processLines post _ hcs2, hstep2]
  rw [hc1, hc2]
  omega

/-- C3 (witness): the amended theorem applied to the two-line document
`["## S", "- [ ] 1. Do"]` and id "1". -/
theorem c3_roundtrip_amended_witness :
    ∃ lines' : List JStr,
      markTaskAsCompletedLines ["## S".toList, "- [ ] 1. Do".toList] "1".toList =
        some lines' ∧
      completedCount lines' =
        completedCount ["## S".toList, "- [ ] 1. Do".toList] + 1 ∧
      ∃ pre l post,
        (["## S".toList, "- [ ] 1. Do".toList] : List JStr) = pre ++ l :: post ∧
        lines' = pre ++ replaceBox l :: post ∧ uncheckedMatch l ≠ none :=
  c3_roundtrip_amended ["## S".toList, "- [ ] 1. Do".toList] "1".toList
    (by decide)
    (fun i hi hne => by
      have hi2 : i < 2 := by simpa using hi
      interval_cases i
      · exact absurd rfl hne
      · exact ⟨0, by decide, by decide⟩)

end Usta
